import Mathlib

/-!
Shallow embedding of the `tunnel-fight` combat simulator
(`src/types.rs`, `src/apl.rs`, `src/combat.rs`) and proofs about it.

Machine integers (`i32`, `u32`, `usize`) are modelled as `Int` / `Nat`
with the parse-time range checks of Rust's `str::parse` made explicit;
no verified property involves arithmetic overflow.  Rust's `f64` in the
condition evaluator is modelled by `F64Val`: parsed finite values as
exact rationals (Rust rounds to the nearest double, so values can differ
only beyond double precision), the non-finite parse results as explicit
infinity/NaN markers with float comparison semantics.  The
numeric-attribute table itself stays in `ℚ`; its division by zero is `0`
where Rust would produce a non-finite float (no claim exercises a
zero-max-HP percentage).
-/

/-- Modelled from the spec: the RNG stream (the `rand` crate's `impl Rng`
is external to the repository).  A deterministic, sequentially advanced
source of uniform draws: an infinite stream of naturals plus a cursor.
Every consumer advances the cursor exactly once per draw, so a fixed
initial state reproduces an identical sequence of draws. -/
structure Rng where
  stream : Nat → Nat
  pos : Nat

/-- Draw one raw value and advance the stream. -/
def Rng.next (r : Rng) : Nat × Rng :=
  (r.stream r.pos, { r with pos := r.pos + 1 })

/-- `rng.gen_range(lo..=hi)`: a uniform draw in the inclusive range.
(The empty-range case `hi < lo`, which panics in Rust, is total here and
returns `lo`; no verified property exercises it.) -/
def Rng.genRange (r : Rng) (lo hi : Nat) : Nat × Rng :=
  let (v, r') := r.next
  (lo + v % (hi + 1 - lo), r')

/-- `rng.gen_bool(0.5)`: a fair coin. -/
def Rng.genBool (r : Rng) : Bool × Rng :=
  let (v, r') := r.next
  (v % 2 == 0, r')

/-! ## `types.rs` -/

/-- `Side` (types.rs). -/
inductive Side where
  | side1
  | side2
deriving DecidableEq, Repr, Fintype

/-- `Side::opposite` (types.rs). -/
def Side.opposite : Side → Side
  | .side1 => .side2
  | .side2 => .side1

/-- `Zone` (types.rs): six battlefield positions. -/
inductive Zone where
  | side1Ranged
  | side1Reach
  | side1Melee
  | side2Melee
  | side2Reach
  | side2Ranged
deriving DecidableEq, Repr, Fintype

/-- The fixed index of a zone in the ordered `zones` array used by
`Zone::distance_to` and `Zone::toward` (types.rs). -/
def Zone.index : Zone → Nat
  | .side1Ranged => 0
  | .side1Reach => 1
  | .side1Melee => 2
  | .side2Melee => 3
  | .side2Reach => 4
  | .side2Ranged => 5

/-- Inverse of `Zone.index` on `0..=5` (the `zones` array lookup). -/
def Zone.ofIndex : Nat → Zone
  | 0 => .side1Ranged
  | 1 => .side1Reach
  | 2 => .side1Melee
  | 3 => .side2Melee
  | 4 => .side2Reach
  | _ => .side2Ranged

/-- `Zone::side` (types.rs). -/
def Zone.side : Zone → Side
  | .side1Ranged | .side1Reach | .side1Melee => .side1
  | .side2Melee | .side2Reach | .side2Ranged => .side2

/-- `Zone::distance_to` (types.rs): absolute difference of fixed indices. -/
def Zone.distance_to (a b : Zone) : Nat :=
  ((a.index : Int) - (b.index : Int)).natAbs

/-- `Zone::toward` (types.rs): `None` when already at the target, else the
adjacent zone one index step in the target's direction. -/
def Zone.toward (a target : Zone) : Option Zone :=
  if a = target then none
  else if target.index > a.index then some (Zone.ofIndex (a.index + 1))
  else some (Zone.ofIndex (a.index - 1))

/-- `WeaponRange` (types.rs). -/
inductive WeaponRange where
  | melee
  | reach
  | ranged
deriving DecidableEq, Repr, Fintype

/-- `WeaponRange::max_distance` (types.rs). -/
def WeaponRange.max_distance : WeaponRange → Nat
  | .melee => 1
  | .reach => 2
  | .ranged => 6

/-- `DamageDice` (types.rs). -/
structure DamageDice where
  count : Nat
  sides : Nat
  modifier : Int
deriving DecidableEq, Repr

/-- The loop of `DamageDice::roll`: add `n` uniform draws in `1..=sides`
to the running total. -/
def rollDiceAux (sides : Nat) : Nat → Int → Rng → Int × Rng
  | 0, total, r => (total, r)
  | n + 1, total, r =>
    let (v, r') := r.genRange 1 sides
    rollDiceAux sides n (total + (v : Int)) r'

/-- `DamageDice::roll` (types.rs): modifier plus `count` draws, floored at 0. -/
def DamageDice.roll (d : DamageDice) (r : Rng) : Int × Rng :=
  let (total, r') := rollDiceAux d.sides d.count d.modifier r
  (max total 0, r')

/-! ### Dice-expression text (`parse_damage_dice`, types.rs)

Rust `str::parse::<u32>` / `::<i32>` accept an optional sign (`+` for
unsigned, `+`/`-` for signed) followed by one or more ASCII digits;
overflow is not modelled (the integers here are unbounded). -/

/-- Digits-only numeral: `none` unless the list is nonempty and all digits. -/
def digitsToNat : List Char → Option Nat
  | [] => none
  | cs =>
    if cs.all (fun c => c.isDigit) then
      some (cs.foldl (fun acc c => acc * 10 + (c.toNat - '0'.toNat)) 0)
    else none

/-- Value of a digit run if it fits in `u32` (Rust's parse fails on
overflow). -/
def digitsToU32 (cs : List Char) : Option Nat :=
  match digitsToNat cs with
  | some n => if n ≤ 4294967295 then some n else none
  | none => none

/-- Rust `str::parse::<u32>`: optional leading `+`, then digits, failing
beyond `u32::MAX`. -/
def parseU32 : List Char → Option Nat
  | '+' :: cs => digitsToU32 cs
  | cs => digitsToU32 cs

/-- Rust `str::parse::<i32>`: optional sign, then digits, failing
outside the `i32` range. -/
def parseI32 : List Char → Option Int
  | '+' :: cs =>
    match digitsToNat cs with
    | some n => if n ≤ 2147483647 then some (n : Int) else none
    | none => none
  | '-' :: cs =>
    match digitsToNat cs with
    | some n => if n ≤ 2147483648 then some (-(n : Int)) else none
    | none => none
  | cs =>
    match digitsToNat cs with
    | some n => if n ≤ 2147483647 then some (n : Int) else none
    | none => none

/-- Index of the first occurrence of `c` (Rust `str::find`). -/
def findCharIdx (c : Char) : List Char → Option Nat
  | [] => none
  | x :: xs =>
    if x = c then some 0
    else (findCharIdx c xs).map (· + 1)

/-- Index of the last occurrence of `c` (Rust `str::rfind`). -/
def rfindCharIdx (c : Char) (cs : List Char) : Option Nat :=
  (findCharIdx c cs.reverse).map (fun i => cs.length - 1 - i)

/-- Rust `str::split(c)`: split at every occurrence of `c`. -/
def splitOnChar (c : Char) : List Char → List (List Char)
  | [] => [[]]
  | x :: xs =>
    if x = c then [] :: splitOnChar c xs
    else
      match splitOnChar c xs with
      | [] => [[x]]
      | p :: ps => (x :: p) :: ps

/-- ASCII whitespace (Rust `str::trim` strips Unicode `White_Space`;
the ASCII subset is modelled — no rule or dice text in scope uses
non-ASCII whitespace). -/
def isSpaceChar (ch : Char) : Bool :=
  ch = ' ' ∨ ch = '\t' ∨ ch = '\n' ∨ ch = '\r'

/-- Rust `str::trim` on a character list. -/
def listTrim (cs : List Char) : List Char :=
  ((cs.dropWhile isSpaceChar).reverse.dropWhile isSpaceChar).reverse

/-- Rust `str::trim` (structurally recursive so that concrete inputs
evaluate inside the kernel). -/
def strTrim (s : String) : String :=
  ⟨listTrim s.data⟩

/-- ASCII lowercasing of one character (Rust `to_lowercase`; non-ASCII
letters are not modelled). -/
def charToLower (ch : Char) : Char :=
  if 'A' ≤ ch ∧ ch ≤ 'Z' then Char.ofNat (ch.toNat + 32) else ch

/-- Rust `str::to_lowercase` (ASCII model). -/
def strToLower (s : String) : String :=
  ⟨s.data.map charToLower⟩

/-- Rust `str::contains(char)`. -/
def strContains (s : String) (c : Char) : Bool :=
  s.data.contains c

/-- Rust `str::split(char).collect::<Vec<_>>()`. -/
def strSplitChar (s : String) (c : Char) : List String :=
  (splitOnChar c s.data).map (fun cs => ⟨cs⟩)

/-- `parse_damage_dice` (types.rs): `NdM`, `NdM+K`, `NdM-K`
(case-insensitive, trimmed).  Rust returns `Result<DamageDice, String>`;
the error string is dropped here, failure is `none`. -/
def parse_damage_dice (s : String) : Option DamageDice :=
  let cs := (strToLower (strTrim s)).data
  let dicemod : Option (List Char × Int) :=
    match findCharIdx '+' cs with
    | some idx =>
      match parseI32 (cs.drop (idx + 1)) with
      | some m => some (cs.take idx, m)
      | none => none
    | none =>
      match rfindCharIdx '-' cs with
      | some idx =>
        if idx = 0 then none
        else
          match parseI32 (cs.drop idx) with
          | some m => some (cs.take idx, m)
          | none => none
      | none => some (cs, 0)
  match dicemod with
  | none => none
  | some (dicePart, m) =>
    match splitOnChar 'd' dicePart with
    | [p1, p2] =>
      match parseU32 p1, parseU32 p2 with
      | some count, some sides => some ⟨count, sides, m⟩
      | _, _ => none
    | _ => none

/-- `StartingZone` (types.rs). -/
inductive StartingZone where
  | rangedStart
  | reachStart
  | meleeStart
deriving DecidableEq, Repr, Fintype

/-- `HpValue` (types.rs): a fixed integer or a dice-expression string. -/
inductive HpValue where
  | fixed (v : Int)
  | dice (s : String)
deriving DecidableEq, Repr

/-- `HpValue::roll` (types.rs): a fixed value verbatim; a dice expression
rolled and floored at 1, or 1 outright when it does not parse. -/
def HpValue.roll (hp : HpValue) (r : Rng) : Int × Rng :=
  match hp with
  | .fixed v => (v, r)
  | .dice s =>
    match parse_damage_dice s with
    | some d =>
      let (v, r') := d.roll r
      (max v 1, r')
    | none => (1, r)

/-- `AplEntry` (types.rs): one line of a rule program. -/
structure AplEntry where
  action : String
  condition : Option String
  target : Option String
deriving DecidableEq, Repr

/-- `ActorTemplate` (types.rs).  The `initiative_modifier` field is
modelled from the spec: "a fixed per-actor modifier" added to the
initiative roll (`combat.rs` reads `a.initiative_modifier`; the field's
declaration is not in the snapshot's `types.rs`). -/
structure ActorTemplate where
  name : String
  hp : HpValue
  ac : Int
  attack_bonus : Int
  damage : DamageDice
  speed : Nat
  range : WeaponRange
  start_zone : StartingZone
  initiative_modifier : Int
  apl : List AplEntry
deriving DecidableEq, Repr

/-- `Actor` (types.rs): runtime combatant state. -/
structure Actor where
  id : Nat
  name : String
  side : Side
  max_hp : Int
  current_hp : Int
  ac : Int
  attack_bonus : Int
  damage : DamageDice
  speed : Nat
  range : WeaponRange
  zone : Zone
  initiative_modifier : Int
  apl : List AplEntry
deriving DecidableEq, Repr

instance : Inhabited Actor :=
  ⟨⟨0, "", .side1, 0, 0, 0, 0, ⟨0, 0, 0⟩, 0, .melee, .side1Ranged, 0, []⟩⟩

/-- `Actor::from_template` (types.rs): resolve the starting zone from
(side, starting-zone class), roll hit points once, copy the rest. -/
def Actor.from_template (id : Nat) (t : ActorTemplate) (side : Side) (r : Rng) :
    Actor × Rng :=
  let zone := match side, t.start_zone with
    | .side1, .rangedStart => Zone.side1Ranged
    | .side1, .reachStart => Zone.side1Reach
    | .side1, .meleeStart => Zone.side1Melee
    | .side2, .rangedStart => Zone.side2Ranged
    | .side2, .reachStart => Zone.side2Reach
    | .side2, .meleeStart => Zone.side2Melee
  let (hp, r') := t.hp.roll r
  (⟨id, t.name, side, hp, hp, t.ac, t.attack_bonus, t.damage, t.speed,
    t.range, zone, t.initiative_modifier, t.apl⟩, r')

/-- `Actor::is_alive` (types.rs). -/
def Actor.is_alive (a : Actor) : Bool :=
  a.current_hp > 0

/-- `Actor::can_attack` (types.rs): target within maximum engagement
distance. -/
def Actor.can_attack (a target : Actor) : Bool :=
  a.zone.distance_to target.zone ≤ a.range.max_distance

/-- `ZoneCapacities` (types.rs): `none` for ranged means unlimited. -/
structure ZoneCapacities where
  ranged : Option Nat
  reach : Nat
  melee : Nat
deriving DecidableEq, Repr

/-- `ZoneCapacities::capacity_for` (types.rs). -/
def ZoneCapacities.capacity_for (c : ZoneCapacities) : Zone → Option Nat
  | .side1Ranged | .side2Ranged => c.ranged
  | .side1Reach | .side2Reach => some c.reach
  | .side1Melee | .side2Melee => some c.melee

/-- Modelled from the spec: `InitiativeType` — the four mutually exclusive
turn-ordering algorithms (§4.3).  `combat.rs` matches on these variants;
the enum's declaration is not in the snapshot's `types.rs`. -/
inductive InitiativeType where
  | side
  | individual
  | sidePhases
  | individualPhases
deriving DecidableEq, Repr, Fintype

/-- Modelled from the spec: `Phase` — the sub-round stages
(Movement/Ranged/Reach/Melee) of the phased modes (§4.3); `combat.rs`
matches on these variants, the declaration is not in the snapshot. -/
inductive Phase where
  | movement
  | rangedPhase
  | reachPhase
  | meleePhase
deriving DecidableEq, Repr, Fintype

/-- Modelled from the spec: the encounter's initiative configuration —
mode selection, initiative dice expression (text), and phase sequence
(§6); `combat.rs` reads `encounter.initiative.{initiative_type, dice,
phases}`, the record's declaration is not in the snapshot. -/
structure InitiativeConfig where
  initiative_type : InitiativeType
  dice : String
  phases : List Phase
deriving DecidableEq, Repr

/-- `Encounter` (types.rs), with the spec-modelled `initiative` field. -/
structure Encounter where
  name : Option String
  side1 : List ActorTemplate
  side2 : List ActorTemplate
  iterations : Nat
  zone_capacity : ZoneCapacities
  initiative : InitiativeConfig
deriving DecidableEq, Repr

/-! ## `apl.rs` -/

/-- `MoveDirection` (apl.rs). -/
inductive MoveDirection where
  | toward (target_id : Nat)
  | toZone (zone : Zone)
  | forward
  | backward
deriving DecidableEq, Repr

/-- `MoveAction` (apl.rs). -/
inductive MoveAction where
  | move (direction : MoveDirection)
  | noMove
deriving DecidableEq, Repr

/-- `AttackAction` (apl.rs). -/
inductive AttackAction where
  | attack (target_id : Nat)
  | noAttack
deriving DecidableEq, Repr

/-- `TurnActions` (apl.rs). -/
structure TurnActions where
  move_action : MoveAction
  attack_action : AttackAction
deriving DecidableEq, Repr

/-- `AplContext::enemies` (apl.rs): living actors of the other side, in
roster order. -/
def enemiesOf (actor : Actor) (actors : List Actor) : List Actor :=
  actors.filter (fun a => a.side ≠ actor.side ∧ a.is_alive)

/-- `AplContext::allies` (apl.rs): living same-side actors other than
self. -/
def alliesOf (actor : Actor) (actors : List Actor) : List Actor :=
  actors.filter (fun a => a.side = actor.side ∧ a.is_alive ∧ a.id ≠ actor.id)

/-- Rust `Iterator::min_by_key`: the first element attaining the minimum
key, or `none` on an empty sequence. -/
def firstMinBy {β : Type} [LinearOrder β] (key : Actor → β) (l : List Actor) :
    Option Actor :=
  l.foldl
    (fun acc x =>
      match acc with
      | none => some x
      | some m => if key x < key m then some x else some m)
    none

/-- `AplContext::nearest_enemy` (apl.rs). -/
def nearest_enemy (actor : Actor) (actors : List Actor) : Option Actor :=
  firstMinBy (fun e => actor.zone.distance_to e.zone) (enemiesOf actor actors)

/-- `AplContext::lowest_hp_enemy` (apl.rs). -/
def lowest_hp_enemy (actor : Actor) (actors : List Actor) : Option Actor :=
  firstMinBy (fun e => e.current_hp) (enemiesOf actor actors)

/-- `rng.gen_range(lo..hi)`: a uniform draw in the half-open range
(total here where Rust panics on an empty range). -/
def Rng.genRangeLt (r : Rng) (lo hi : Nat) : Nat × Rng :=
  let (v, r') := r.next
  (lo + v % (hi - lo), r')

/-- `AplContext::random_enemy` (apl.rs). -/
def random_enemy (actor : Actor) (actors : List Actor) (r : Rng) :
    Option Actor × Rng :=
  let es := enemiesOf actor actors
  if es.isEmpty then (none, r)
  else
    let (i, r') := r.genRangeLt 0 es.length
    (es.getD i default, r')

/-- `AplContext::enemies_in_range` (apl.rs): living enemies within the
actor's weapon range, roster order. -/
def enemies_in_range (actor : Actor) (actors : List Actor) : List Actor :=
  (enemiesOf actor actors).filter
    (fun e => actor.zone.distance_to e.zone ≤ actor.range.max_distance)

/-- `AplContext::has_enemy_in_range` (apl.rs). -/
def has_enemy_in_range (actor : Actor) (actors : List Actor) : Bool :=
  ¬ (enemies_in_range actor actors).isEmpty

/-- A parsed `f64`: a finite value (kept as an exact rational), one of
the infinities, or NaN.  Finite values are exact rationals where Rust
rounds to the nearest double, so values can differ from Rust's only
beyond double precision (including huge exponents Rust saturates to
infinity or zero); no verified property exercises that regime. -/
inductive F64Val where
  | finite (q : ℚ)
  | posInf
  | negInf
  | nan
deriving DecidableEq, Repr

/-- Rust f64 `<` with a finite left operand. -/
def F64Val.ltq (lhs : ℚ) : F64Val → Bool
  | .finite q => decide (lhs < q)
  | .posInf => true
  | .negInf => false
  | .nan => false

/-- Rust f64 `>` with a finite left operand. -/
def F64Val.gtq (lhs : ℚ) : F64Val → Bool
  | .finite q => decide (lhs > q)
  | .posInf => false
  | .negInf => true
  | .nan => false

/-- Mantissa numeral over `ℚ` (unsigned): digits with an optional single
decimal point, at least one digit (`"12"`, `"12.5"`, `"12."`, `".5"`). -/
def parseDecAux (cs : List Char) : Option ℚ :=
  match splitOnChar '.' cs with
  | [ip] => (digitsToNat ip).map (fun n => (n : ℚ))
  | [ip, fp] =>
    if ip.isEmpty ∧ fp.isEmpty then none
    else if ip.all (·.isDigit) ∧ fp.all (·.isDigit) then
      let ipv : ℚ := (ip.foldl (fun acc c => acc * 10 + (c.toNat - '0'.toNat)) 0 : Nat)
      let fpv : ℚ := (fp.foldl (fun acc c => acc * 10 + (c.toNat - '0'.toNat)) 0 : Nat)
      some (ipv + fpv / ((10 : ℚ) ^ fp.length))
    else none
  | _ => none

/-- Split at the first exponent marker `e`/`E`. -/
def splitOnExp : List Char → List Char × Option (List Char)
  | [] => ([], none)
  | c :: cs =>
    if c = 'e' ∨ c = 'E' then ([], some cs)
    else
      match splitOnExp cs with
      | (m, e) => (c :: m, e)

/-- Exponent numeral: optional sign, then digits (Rust never fails on
exponent magnitude — out-of-range exponents saturate, which the exact
`ℚ` value subsumes up to the rounding caveat on `F64Val`). -/
def parseExpInt : List Char → Option Int
  | '+' :: cs => (digitsToNat cs).map (fun n => (n : Int))
  | '-' :: cs => (digitsToNat cs).map (fun n => -(n : Int))
  | cs => (digitsToNat cs).map (fun n => (n : Int))

/-- Scale a mantissa by a power of ten. -/
def applyExp (q : ℚ) (e : Int) : ℚ :=
  if 0 ≤ e then q * (10 : ℚ) ^ e.toNat else q / (10 : ℚ) ^ (-e).toNat

/-- Rust `str::parse::<f64>`: optional sign, then the case-insensitive
non-finite literals `inf`/`infinity`/`nan` or a decimal mantissa with an
optional `e`/`E` exponent; anything else fails. -/
def parseF64 (s : String) : Option F64Val :=
  let signAndRest : Bool × List Char :=
    match s.data with
    | '+' :: t => (false, t)
    | '-' :: t => (true, t)
    | t => (false, t)
  let neg := signAndRest.1
  let rest := signAndRest.2
  let restL := rest.map charToLower
  if restL = ['i', 'n', 'f'] ∨
      restL = ['i', 'n', 'f', 'i', 'n', 'i', 't', 'y'] then
    some (if neg then .negInf else .posInf)
  else if restL = ['n', 'a', 'n'] then some .nan
  else
    match splitOnExp rest with
    | (mant, expPart) =>
      match parseDecAux mant with
      | none => none
      | some q =>
        let qs := if neg then -q else q
        match expPart with
        | none => some (.finite qs)
        | some ec =>
          match parseExpInt ec with
          | none => none
          | some e => some (.finite (applyExp qs e))

/-- `evaluate_numeric` (apl.rs): the numeric-attribute table. -/
def evaluate_numeric (expr : String) (actor : Actor) (actors : List Actor) :
    Option ℚ :=
  if expr = "self.health_percent" ∨ expr = "self.hp_percent" then
    some ((actor.current_hp : ℚ) / (actor.max_hp : ℚ) * 100)
  else if expr = "self.hp" ∨ expr = "self.health" then
    some (actor.current_hp : ℚ)
  else if expr = "enemy.count" then
    some ((enemiesOf actor actors).length : ℚ)
  else if expr = "ally.count" then
    some ((alliesOf actor actors).length : ℚ)
  else none

/-- `evaluate_condition` (apl.rs): trim + lowercase, match the literal
forms, else try a `<` / `>` comparison, else default to `true`. -/
def evaluate_condition (condition : String) (actor : Actor)
    (actors : List Actor) : Bool :=
  let c := strToLower (strTrim condition)
  if c = "true" ∨ c = "" then true
  else if c = "false" then false
  else if c = "enemy.in_range" ∨ c = "enemy_in_range" then
    has_enemy_in_range actor actors
  else if c = "!enemy.in_range" ∨ c = "!enemy_in_range" ∨
      c = "not enemy.in_range" then
    ¬ has_enemy_in_range actor actors
  else if strContains c '<' then
    match strSplitChar c '<' with
    | [lhs, rhs] =>
      let rhsv := (parseF64 (strTrim rhs)).getD (.finite 0)
      match evaluate_numeric (strTrim lhs) actor actors with
      | some lhsv => F64Val.ltq lhsv rhsv
      | none => true
    | _ => true
  else if strContains c '>' then
    match strSplitChar c '>' with
    | [lhs, rhs] =>
      let rhsv := (parseF64 (strTrim rhs)).getD (.finite 0)
      match evaluate_numeric (strTrim lhs) actor actors with
      | some lhsv => F64Val.gtq lhsv rhsv
      | none => true
    | _ => true
  else true

/-- `resolve_target` (apl.rs): trim + lowercase, resolve to an actor id;
unrecognized text defaults to the nearest enemy. -/
def resolve_target (target_str : String) (actor : Actor)
    (actors : List Actor) (r : Rng) : Option Nat × Rng :=
  let t := strToLower (strTrim target_str)
  if t = "nearest_enemy" ∨ t = "nearest" then
    ((nearest_enemy actor actors).map (·.id), r)
  else if t = "lowest_hp_enemy" ∨ t = "lowest_hp" ∨ t = "weakest" then
    ((lowest_hp_enemy actor actors).map (·.id), r)
  else if t = "random_enemy" ∨ t = "random" then
    let (a, r') := random_enemy actor actors r
    (a.map (·.id), r')
  else
    ((nearest_enemy actor actors).map (·.id), r)

/-- The attack-target selection inlined in `execute_apl`'s `"attack"` arm
(apl.rs lines 172–186): lowercase the target text, restrict to enemies in
weapon range, and pick lowest-HP / random / first-in-roster-order. -/
def selectAttackTarget (actor : Actor) (actors : List Actor)
    (target_str : String) (r : Rng) : Option Nat × Rng :=
  let t := strToLower target_str
  let in_range := enemies_in_range actor actors
  if t = "lowest_hp_enemy" ∨ t = "lowest_hp" ∨ t = "weakest" then
    ((firstMinBy (fun e => e.current_hp) in_range).map (·.id), r)
  else if t = "random_enemy" ∨ t = "random" then
    if in_range.isEmpty then (none, r)
    else
      let (i, r') := r.genRangeLt 0 in_range.length
      (some (in_range.getD i default).id, r')
  else
    (in_range.head?.map (·.id), r)

/-- `MoveAction` is set (Rust `!matches!(move_action, MoveAction::None)`). -/
def MoveAction.isSet : MoveAction → Bool
  | .move _ => true
  | .noMove => false

/-- `AttackAction` is set. -/
def AttackAction.isSet : AttackAction → Bool
  | .attack _ => true
  | .noAttack => false

/-- The body of one iteration of `execute_apl`'s entry scan (apl.rs):
for an entry whose condition held, attempt to fill whichever of
move/attack is still unset, honoring the entry's action kind. -/
def aplStep (actor : Actor) (actors : List Actor) (entry : AplEntry)
    (mv : MoveAction) (atk : AttackAction) (r : Rng) :
    MoveAction × AttackAction × Rng :=
  let act := strToLower entry.action
  if act = "attack" then
    if !atk.isSet && has_enemy_in_range actor actors then
      let target_str := entry.target.getD "nearest_enemy"
      let (tgt, r1) := selectAttackTarget actor actors target_str r
      match tgt with
      | some tid => (mv, .attack tid, r1)
      | none => (mv, atk, r1)
    else (mv, atk, r)
  else if act = "move" then
    if !mv.isSet then
      let target_str := entry.target.getD "nearest_enemy"
      let tl := strToLower target_str
      if tl = "forward" then (.move .forward, atk, r)
      else if tl = "backward" then (.move .backward, atk, r)
      else
        match resolve_target target_str actor actors r with
        | (some tid, r1) => (.move (.toward tid), atk, r1)
        | (none, r1) => (mv, atk, r1)
    else (mv, atk, r)
  else (mv, atk, r)

/-- The entry-scanning loop of `execute_apl` (apl.rs): scan entries in
order, skipping those whose condition fails, stopping once both actions
are set. -/
def aplLoop (actor : Actor) (actors : List Actor) :
    List AplEntry → MoveAction → AttackAction → Rng → TurnActions × Rng
  | [], mv, atk, r => (⟨mv, atk⟩, r)
  | entry :: rest, mv, atk, r =>
    let condition_met :=
      match entry.condition with
      | some c => evaluate_condition c actor actors
      | none => true
    if !condition_met then aplLoop actor actors rest mv atk r
    else
      let (mv', atk', r') := aplStep actor actors entry mv atk r
      if mv'.isSet && atk'.isSet then (⟨mv', atk'⟩, r')
      else aplLoop actor actors rest mv' atk' r'

/-- The built-in default rule program substituted when an actor's program
is empty (apl.rs). -/
def default_apl : List AplEntry :=
  [⟨"attack", some "enemy.in_range", some "nearest_enemy"⟩,
   ⟨"move", none, some "nearest_enemy"⟩]

/-- `execute_apl` (apl.rs): produce this decision point's move and attack
intentions from the actor's (or default) rule program. -/
def execute_apl (actor : Actor) (actors : List Actor) (r : Rng) :
    TurnActions × Rng :=
  let apl := if actor.apl.isEmpty then default_apl else actor.apl
  aplLoop actor actors apl .noMove .noAttack r

/-! ## `combat.rs` -/

/-- `EventType` (combat.rs). -/
inductive EventType where
  | attack (target_id : Nat) (target_name : String) (roll : Int)
      (target_ac : Int) (hit : Bool) (damage : Int)
  | move (fromZone toZone : Zone)
  | death (killer_id : Option Nat)
deriving DecidableEq, Repr

/-- `CombatEvent` (combat.rs). -/
structure CombatEvent where
  round : Nat
  actor_id : Nat
  actor_name : String
  event_type : EventType
deriving DecidableEq, Repr

/-- `ActorState` (combat.rs): the per-actor final snapshot. -/
structure ActorState where
  id : Nat
  name : String
  side : Side
  max_hp : Int
  final_hp : Int
  alive : Bool
  zone : Zone
deriving DecidableEq, Repr

/-- `CombatResult` (combat.rs). -/
structure CombatResult where
  winner : Option Side
  rounds : Nat
  events : List CombatEvent
  final_state : List ActorState
deriving DecidableEq, Repr

/-- `CombatSimulator` (combat.rs): the battle state. -/
structure CombatSimulator where
  actors : List Actor
  events : List CombatEvent
  round : Nat
  max_rounds : Nat
  zone_capacity : ZoneCapacities
  initiative_type : InitiativeType
  initiative_dice : DamageDice
  phases : List Phase

/-- Apply `f` to the element at index `i` (Rust `self.actors[i] = ...`);
out of range leaves the list unchanged. -/
def listUpdate {α : Type} (f : α → α) : List α → Nat → List α
  | [], _ => []
  | x :: xs, 0 => f x :: xs
  | x :: xs, n + 1 => x :: listUpdate f xs n

/-- Rust `self.actors[i]` (panics out of range; modelled by a dummy
actor there — the roster-index invariant shows every access in range). -/
def CombatSimulator.getActor (s : CombatSimulator) (i : Nat) : Actor :=
  s.actors.getD i default

/-- `CombatSimulator::zone_has_capacity` (combat.rs): living occupants of
the zone, excluding the given actor, strictly below capacity (unlimited
always passes). -/
def CombatSimulator.zone_has_capacity (s : CombatSimulator) (zone : Zone)
    (exclude_actor_id : Nat) : Bool :=
  match s.zone_capacity.capacity_for zone with
  | none => true
  | some cap =>
    (s.actors.filter
      (fun a => a.zone = zone ∧ a.is_alive ∧ a.id ≠ exclude_actor_id)).length < cap

/-- `CombatSimulator::zone_has_enemies` (combat.rs). -/
def CombatSimulator.zone_has_enemies (s : CombatSimulator) (zone : Zone)
    (actor_side : Side) : Bool :=
  s.actors.any (fun a => a.zone = zone ∧ a.is_alive ∧ a.side ≠ actor_side)

/-- `CombatSimulator::can_enter_zone` (combat.rs): capacity available and
no living enemy occupant — used by `execute_move` in every initiative
mode. -/
def CombatSimulator.can_enter_zone (s : CombatSimulator) (zone : Zone)
    (actor_id : Nat) (actor_side : Side) : Bool :=
  s.zone_has_capacity zone actor_id && !(s.zone_has_enemies zone actor_side)

/-- `CombatSimulator::is_combat_over` (combat.rs). -/
def CombatSimulator.is_combat_over (s : CombatSimulator) : Bool :=
  !(s.actors.any (fun a => a.side = Side.side1 ∧ a.is_alive)) ||
  !(s.actors.any (fun a => a.side = Side.side2 ∧ a.is_alive))

/-- `CombatSimulator::get_winner` (combat.rs). -/
def CombatSimulator.get_winner (s : CombatSimulator) : Option Side :=
  let side1_alive := s.actors.any (fun a => a.side = Side.side1 ∧ a.is_alive)
  let side2_alive := s.actors.any (fun a => a.side = Side.side2 ∧ a.is_alive)
  match side1_alive, side2_alive with
  | true, false => some Side.side1
  | false, true => some Side.side2
  | _, _ => none

/-- The per-direction stepping loop of `execute_move` (combat.rs): up to
`speed` single steps toward the destination zone, stopping at the first
illegal entry (the roster, and hence `can_enter_zone`, is fixed for the
whole loop; the mover's zone is written back only afterwards). -/
def stepLoop (s : CombatSimulator) (actor_id : Nat) (actor_side : Side)
    (dest : Zone) : Nat → Zone → Zone
  | 0, current => current
  | n + 1, current =>
    match current.toward dest with
    | some next =>
      if s.can_enter_zone next actor_id actor_side then
        stepLoop s actor_id actor_side dest n next
      else current
    | none => current

/-- `CombatSimulator::execute_move` (combat.rs): resolve the destination
zone from the direction, walk up to `speed` legal steps, and on any net
movement update the zone and append one Move event. -/
def CombatSimulator.execute_move (s : CombatSimulator) (actor_id : Nat)
    (direction : MoveDirection) : CombatSimulator :=
  let actor := s.getActor actor_id
  let from_zone := actor.zone
  let speed := actor.speed
  let actor_side := actor.side
  let dest : Zone :=
    match direction with
    | .toward target_id => (s.getActor target_id).zone
    | .toZone z => z
    | .forward =>
      match actor_side with
      | .side1 => Zone.side2Ranged
      | .side2 => Zone.side1Ranged
    | .backward =>
      match actor_side with
      | .side1 => Zone.side1Ranged
      | .side2 => Zone.side2Ranged
  let to_zone := stepLoop s actor_id actor_side dest speed from_zone
  if to_zone ≠ from_zone then
    { s with
      actors := listUpdate (fun a => { a with zone := to_zone }) s.actors actor_id,
      events := s.events ++
        [⟨s.round, actor_id, actor.name, .move from_zone to_zone⟩] }
  else s

/-- `CombatSimulator::execute_attack` (combat.rs): re-check range and
silently decline when out of range; otherwise roll d20 + bonus against
AC, always append one Attack event, apply damage on a hit, and append a
Death event when the target drops to 0 or below. -/
def CombatSimulator.execute_attack (s : CombatSimulator)
    (attacker_id target_id : Nat) (r : Rng) : CombatSimulator × Rng :=
  let attacker := s.getActor attacker_id
  let target := s.getActor target_id
  if !(attacker.can_attack target) then (s, r)
  else
    let (d20, r1) := r.genRange 1 20
    let roll : Int := (d20 : Int) + attacker.attack_bonus
    let hit := roll ≥ target.ac
    let (damage, r2) :=
      if hit then attacker.damage.roll r1 else ((0 : Int), r1)
    let s1 := { s with
      events := s.events ++
        [⟨s.round, attacker_id, attacker.name,
          .attack target_id target.name roll target.ac hit damage⟩] }
    if hit then
      let s2 := { s1 with
        actors := listUpdate (fun a => { a with current_hp := a.current_hp - damage })
          s1.actors target_id }
      if !(s2.getActor target_id).is_alive then
        ({ s2 with
           events := s2.events ++
             [⟨s2.round, target_id, target.name, .death (some attacker_id)⟩] }, r2)
      else (s2, r2)
    else (s1, r2)

/-- `CombatSimulator::execute_full_turn` (combat.rs): skip the dead,
evaluate the rule program, move, re-evaluate, attack. -/
def CombatSimulator.execute_full_turn (s : CombatSimulator) (actor_id : Nat)
    (r : Rng) : CombatSimulator × Rng :=
  if !(s.getActor actor_id).is_alive then (s, r)
  else
    let (turn_actions, r1) := execute_apl (s.getActor actor_id) s.actors r
    let s1 :=
      match turn_actions.move_action with
      | .move direction => s.execute_move actor_id direction
      | .noMove => s
    let (second, r2) := execute_apl (s1.getActor actor_id) s1.actors r1
    match second.attack_action with
    | .attack target_id => s1.execute_attack actor_id target_id r2
    | .noAttack => (s1, r2)

/-- `CombatSimulator::execute_movement_only` (combat.rs). -/
def CombatSimulator.execute_movement_only (s : CombatSimulator)
    (actor_id : Nat) (r : Rng) : CombatSimulator × Rng :=
  if !(s.getActor actor_id).is_alive then (s, r)
  else
    let (turn_actions, r1) := execute_apl (s.getActor actor_id) s.actors r
    match turn_actions.move_action with
    | .move direction => (s.execute_move actor_id direction, r1)
    | .noMove => (s, r1)

/-- `CombatSimulator::execute_attack_only` (combat.rs). -/
def CombatSimulator.execute_attack_only (s : CombatSimulator)
    (actor_id : Nat) (r : Rng) : CombatSimulator × Rng :=
  if !(s.getActor actor_id).is_alive then (s, r)
  else
    let (turn_actions, r1) := execute_apl (s.getActor actor_id) s.actors r
    match turn_actions.attack_action with
    | .attack target_id => s.execute_attack actor_id target_id r1
    | .noAttack => (s, r1)

/-- Swap two positions of a list (Rust `Vec::swap`). -/
def listSwap (l : List Nat) (i j : Nat) : List Nat :=
  let a := l.getD i 0
  let b := l.getD j 0
  (l.set i b).set j a

/-- The Fisher–Yates loop (combat.rs): for `i` from `len-1` down to `1`,
draw `j` in `0..=i` and swap. -/
def fisherYatesAux : Nat → List Nat → Rng → List Nat × Rng
  | 0, l, r => (l, r)
  | i + 1, l, r =>
    let (j, r') := r.genRange 0 (i + 1)
    fisherYatesAux i (listSwap l (i + 1) j) r'

/-- The shuffle used by the side-ordered modes (combat.rs). -/
def fisherYates (l : List Nat) (r : Rng) : List Nat × Rng :=
  fisherYatesAux (l.length - 1) l r

/-- Living actor ids of one side, roster order (the order collected
before shuffling, combat.rs). -/
def CombatSimulator.livingSideIds (s : CombatSimulator) (side : Side) :
    List Nat :=
  (s.actors.filter (fun a => a.is_alive ∧ a.side = side)).map (·.id)

/-- `CombatSimulator::get_shuffled_side_order` (combat.rs). -/
def CombatSimulator.get_shuffled_side_order (s : CombatSimulator)
    (side : Side) (r : Rng) : List Nat × Rng :=
  fisherYates (s.livingSideIds side) r

/-- The inner turn loop of `run_round_side` (combat.rs): full turns in
order, aborting the round when combat ends (the `Bool` report). -/
def turnsLoop : List Nat → CombatSimulator → Rng →
    CombatSimulator × Rng × Bool
  | [], s, r => (s, r, false)
  | actor_id :: rest, s, r =>
    let (s1, r1) := s.execute_full_turn actor_id r
    if s1.is_combat_over then (s1, r1, true)
    else turnsLoop rest s1 r1

/-- One side's pass in `run_round_side` (combat.rs): shuffle, then full
turns. -/
def sidePass (side : Side) (s : CombatSimulator) (r : Rng) :
    CombatSimulator × Rng × Bool :=
  let (order, r1) := s.get_shuffled_side_order side r
  turnsLoop order s r1

/-- `CombatSimulator::run_round_side` (combat.rs): coin-flip the first
side, then each side acts completely. -/
def CombatSimulator.run_round_side (s : CombatSimulator) (r : Rng) :
    CombatSimulator × Rng :=
  let (b, r0) := r.genBool
  let first := if b then Side.side1 else Side.side2
  let (s1, r1, aborted) := sidePass first s r0
  if aborted then (s1, r1)
  else
    let (s2, r2, _) := sidePass first.opposite s1 r1
    (s2, r2)

/-- The initiative-rolling pass of the individual modes (combat.rs): one
`initiative_dice` roll plus the per-actor modifier for each living actor,
roster order. -/
def rollInits (dice : DamageDice) : List Actor → Rng →
    List (Nat × Int) × Rng
  | [], r => ([], r)
  | a :: rest, r =>
    let (v, r1) := dice.roll r
    let (tl, r2) := rollInits dice rest r1
    ((a.id, v + a.initiative_modifier) :: tl, r2)

/-- The comparator of the initiative sort (combat.rs):
`b.1.cmp(&a.1)` (descending roll) with a fresh coin flip on ties. -/
def initCmp (x y : Nat × Int) (r : Rng) : Ordering × Rng :=
  match compare y.2 x.2 with
  | .eq =>
    let (c, r') := r.genBool
    ((if c then Ordering.lt else Ordering.gt), r')
  | o => (o, r)

/-- Insert into a sorted run, driven by `initCmp`. -/
def insertInit (x : Nat × Int) : List (Nat × Int) → Rng →
    List (Nat × Int) × Rng
  | [], r => ([x], r)
  | y :: ys, r =>
    let (o, r1) := initCmp x y r
    match o with
    | .gt =>
      let (tl, r2) := insertInit x ys r1
      (y :: tl, r2)
    | _ => (x :: y :: ys, r1)

/-- The initiative sort (combat.rs `initiatives.sort_by(...)`), modelled
as a stable insertion sort driven by the same comparator: Rust's
`sort_by` comparison schedule is implementation-defined, and with the
randomized tie-break comparator the resulting permutation and the number
of coin flips depend on that schedule; every property verified here is
independent of both. -/
def sortInits : List (Nat × Int) → Rng → List (Nat × Int) × Rng
  | [], r => ([], r)
  | x :: xs, r =>
    let (tl, r1) := sortInits xs r
    insertInit x tl r1

/-- The inner loop of `run_round_individual` (combat.rs): skip actors
dead by the time their turn comes, full turns, abort when over. -/
def turnsLoopInd : List Nat → CombatSimulator → Rng →
    CombatSimulator × Rng × Bool
  | [], s, r => (s, r, false)
  | actor_id :: rest, s, r =>
    if !(s.getActor actor_id).is_alive then turnsLoopInd rest s r
    else
      let (s1, r1) := s.execute_full_turn actor_id r
      if s1.is_combat_over then (s1, r1, true)
      else turnsLoopInd rest s1 r1

/-- `CombatSimulator::run_round_individual` (combat.rs). -/
def CombatSimulator.run_round_individual (s : CombatSimulator) (r : Rng) :
    CombatSimulator × Rng :=
  let living := s.actors.filter (·.is_alive)
  let (inits, r1) := rollInits s.initiative_dice living r
  let (sorted, r2) := sortInits inits r1
  let (s1, r3, _) := turnsLoopInd (sorted.map (·.1)) s r2
  (s1, r3)

/-- Movement loop of a Movement phase (combat.rs): movement only, no
early abort inside the pass. -/
def moveLoop : List Nat → CombatSimulator → Rng → CombatSimulator × Rng
  | [], s, r => (s, r)
  | id :: rest, s, r =>
    let (s1, r1) := s.execute_movement_only id r
    moveLoop rest s1 r1

/-- Attack loop of an attack phase (combat.rs): attacks by actors whose
weapon range matches the phase, aborting when combat ends. -/
def attackLoop (wr : WeaponRange) : List Nat → CombatSimulator → Rng →
    CombatSimulator × Rng × Bool
  | [], s, r => (s, r, false)
  | id :: rest, s, r =>
    if (s.getActor id).range = wr then
      let (s1, r1) := s.execute_attack_only id r
      if s1.is_combat_over then (s1, r1, true)
      else attackLoop wr rest s1 r1
    else attackLoop wr rest s r

/-- Movement pass of one side in a Movement phase (combat.rs): shuffled
order, then the movement loop. -/
def movePassSide (side : Side) (s : CombatSimulator) (r : Rng) :
    CombatSimulator × Rng :=
  let (order, r1) := s.get_shuffled_side_order side r
  moveLoop order s r1

/-- Attack pass of one side in an attack phase (combat.rs): shuffled
order, then the attack loop. -/
def attackPassSide (side : Side) (wr : WeaponRange) (s : CombatSimulator)
    (r : Rng) : CombatSimulator × Rng × Bool :=
  let (order, r1) := s.get_shuffled_side_order side r
  attackLoop wr order s r1

/-- One phase of `run_round_side_phases` (combat.rs): first side's pass
then second side's, with attack-phase aborts propagated. -/
def phaseStepSide (first : Side) (phase : Phase) (s : CombatSimulator)
    (r : Rng) : CombatSimulator × Rng × Bool :=
  match phase with
  | .movement =>
    let (s1, r1) := movePassSide first s r
    let (s2, r2) := movePassSide first.opposite s1 r1
    (s2, r2, false)
  | .rangedPhase =>
    let (s1, r1, ab) := attackPassSide first .ranged s r
    if ab then (s1, r1, true)
    else attackPassSide first.opposite .ranged s1 r1
  | .reachPhase =>
    let (s1, r1, ab) := attackPassSide first .reach s r
    if ab then (s1, r1, true)
    else attackPassSide first.opposite .reach s1 r1
  | .meleePhase =>
    let (s1, r1, ab) := attackPassSide first .melee s r
    if ab then (s1, r1, true)
    else attackPassSide first.opposite .melee s1 r1

/-- The phase loop of `run_round_side_phases` (combat.rs): run each
configured phase, returning early on an abort or when combat is over
after a phase. -/
def phasesLoopSide (first : Side) : List Phase → CombatSimulator → Rng →
    CombatSimulator × Rng
  | [], s, r => (s, r)
  | p :: rest, s, r =>
    let (s1, r1, ab) := phaseStepSide first p s r
    if ab then (s1, r1)
    else if s1.is_combat_over then (s1, r1)
    else phasesLoopSide first rest s1 r1

/-- `CombatSimulator::run_round_side_phases` (combat.rs). -/
def CombatSimulator.run_round_side_phases (s : CombatSimulator) (r : Rng) :
    CombatSimulator × Rng :=
  let (b, r0) := r.genBool
  let first := if b then Side.side1 else Side.side2
  phasesLoopSide first s.phases s r0

/-- Movement pass over the single initiative order (combat.rs,
`run_round_individual_phases`): living actors move, no abort. -/
def movePassOrder : List Nat → CombatSimulator → Rng →
    CombatSimulator × Rng
  | [], s, r => (s, r)
  | id :: rest, s, r =>
    if (s.getActor id).is_alive then
      let (s1, r1) := s.execute_movement_only id r
      movePassOrder rest s1 r1
    else movePassOrder rest s r

/-- Attack pass over the single initiative order (combat.rs): living,
range-matching actors attack, aborting when combat ends. -/
def attackPassOrder (wr : WeaponRange) : List Nat → CombatSimulator →
    Rng → CombatSimulator × Rng × Bool
  | [], s, r => (s, r, false)
  | id :: rest, s, r =>
    if (s.getActor id).is_alive ∧ (s.getActor id).range = wr then
      let (s1, r1) := s.execute_attack_only id r
      if s1.is_combat_over then (s1, r1, true)
      else attackPassOrder wr rest s1 r1
    else attackPassOrder wr rest s r

/-- The phase loop of `run_round_individual_phases` (combat.rs). -/
def phasesLoopInd (order : List Nat) : List Phase → CombatSimulator →
    Rng → CombatSimulator × Rng
  | [], s, r => (s, r)
  | p :: rest, s, r =>
    let (s1, r1, ab) :=
      match p with
      | .movement =>
        let (s', r') := movePassOrder order s r
        (s', r', false)
      | .rangedPhase => attackPassOrder .ranged order s r
      | .reachPhase => attackPassOrder .reach order s r
      | .meleePhase => attackPassOrder .melee order s r
    if ab then (s1, r1)
    else if s1.is_combat_over then (s1, r1)
    else phasesLoopInd order rest s1 r1

/-- `CombatSimulator::run_round_individual_phases` (combat.rs). -/
def CombatSimulator.run_round_individual_phases (s : CombatSimulator)
    (r : Rng) : CombatSimulator × Rng :=
  let living := s.actors.filter (·.is_alive)
  let (inits, r1) := rollInits s.initiative_dice living r
  let (sorted, r2) := sortInits inits r1
  phasesLoopInd (sorted.map (·.1)) s.phases s r2

/-- One round: dispatch on the configured initiative mode (the body of
the `while` loop of `run`, combat.rs). -/
def CombatSimulator.roundStep (s : CombatSimulator) (r : Rng) :
    CombatSimulator × Rng :=
  match s.initiative_type with
  | .side => s.run_round_side r
  | .individual => s.run_round_individual r
  | .sidePhases => s.run_round_side_phases r
  | .individualPhases => s.run_round_individual_phases r

/-- The round loop of `run` (combat.rs), with an explicit fuel that
bounds the iterations.  One iteration requires `round < max_rounds` and
increments `round` while `roundStep` preserves both fields, so fuel
`max_rounds - round` makes fuel exhaustion coincide with the loop
guard's failure. -/
def runLoop : Nat → CombatSimulator → Rng → CombatSimulator × Rng
  | 0, s, r => (s, r)
  | fuel + 1, s, r =>
    if !s.is_combat_over ∧ s.round < s.max_rounds then
      let (s1, r1) := CombatSimulator.roundStep { s with round := s.round + 1 } r
      runLoop fuel s1 r1
    else (s, r)

/-- Build the `CombatResult` returned at the end of `run` (combat.rs). -/
def CombatSimulator.mkResult (s : CombatSimulator) : CombatResult :=
  { winner := s.get_winner,
    rounds := s.round,
    events := s.events,
    final_state := s.actors.map (fun a =>
      ⟨a.id, a.name, a.side, a.max_hp, a.current_hp, a.is_alive, a.zone⟩) }

/-- `CombatSimulator::run` (combat.rs): loop rounds until combat is over
or the round cap is reached, then produce the result. -/
def CombatSimulator.run (s : CombatSimulator) (r : Rng) :
    CombatResult × Rng :=
  let (s1, r1) := runLoop (s.max_rounds - s.round) s r
  (s1.mkResult, r1)

/-- Actor construction loop of `CombatSimulator::new` (combat.rs): one
actor per template, consecutive ids from `startId`. -/
def mkActorsFrom (side : Side) : List ActorTemplate → Nat → Rng →
    List Actor × Rng
  | [], _, r => ([], r)
  | t :: rest, id, r =>
    let (a, r1) := Actor.from_template id t side r
    let (tl, r2) := mkActorsFrom side rest (id + 1) r1
    (a :: tl, r2)

/-- `CombatSimulator::new` (combat.rs): side 1's actors then side 2's,
ids consecutive from 0; the initiative dice expression parsed with the
`1d20+0` fallback. -/
def CombatSimulator.new (encounter : Encounter) (max_rounds : Nat)
    (r : Rng) : CombatSimulator × Rng :=
  let (a1, r1) := mkActorsFrom .side1 encounter.side1 0 r
  let (a2, r2) := mkActorsFrom .side2 encounter.side2 encounter.side1.length r1
  let initiative_dice :=
    (parse_damage_dice encounter.initiative.dice).getD ⟨1, 20, 0⟩
  ({ actors := a1 ++ a2,
     events := [],
     round := 0,
     max_rounds := max_rounds,
     zone_capacity := encounter.zone_capacity,
     initiative_type := encounter.initiative.initiative_type,
     initiative_dice := initiative_dice,
     phases := encounter.initiative.phases }, r2)

/-- One battle as the API layer runs it (api.rs `simulate` loop body):
construct the simulator from the encounter and the shared RNG stream,
then run it. -/
def simulateOne (encounter : Encounter) (max_rounds : Nat) (r : Rng) :
    CombatResult × Rng :=
  let (sim, r1) := CombatSimulator.new encounter max_rounds r
  sim.run r1

/-! ## Concrete fixtures used by witnesses and counterexamples -/

/-- A fixed all-zeros RNG stream. -/
def rng0 : Rng := ⟨fun _ => 0, 0⟩

/-- A plain melee combatant at a chosen zone. -/
def meleeActor (id : Nat) (side : Side) (z : Zone) : Actor :=
  ⟨id, "a", side, 10, 10, 10, 0, ⟨1, 6, 0⟩, 1, .melee, z, 0, []⟩

/-- A template whose hit-point value is the fixed integer 0. -/
def tmplFixed0 : ActorTemplate :=
  ⟨"t", .fixed 0, 10, 0, ⟨1, 6, 0⟩, 1, .melee, .rangedStart, 0, []⟩

/-- Immobile, unhittable combatant template (speed 0, AC 30): battles
between such combatants reach the round cap with everyone alive. -/
def stallTemplate : ActorTemplate :=
  ⟨"s", .fixed 10, 30, 0, ⟨1, 6, 0⟩, 0, .melee, .rangedStart, 0, []⟩

/-- One stalling combatant per side, Side initiative. -/
def stallEncounter : Encounter :=
  ⟨none, [stallTemplate], [stallTemplate], 1, ⟨none, 3, 3⟩, ⟨.side, "1d20", []⟩⟩

/-- Side 2 starts empty: combat is over before the first round. -/
def soloEncounter : Encounter :=
  ⟨none, [stallTemplate], [], 1, ⟨none, 3, 3⟩, ⟨.side, "1d20", []⟩⟩

/-- Side-initiative state: a side-1 melee mover one step from the side-2
melee zone, which holds one living enemy and has spare capacity. -/
def simC1 : CombatSimulator :=
  ⟨[meleeActor 0 .side1 .side1Melee, meleeActor 1 .side2 .side2Melee],
   [], 1, 100, ⟨none, 3, 3⟩, .side, ⟨1, 20, 0⟩, []⟩

/-- Characterization of `listUpdate` under `getD`. -/
theorem listUpdate_getD {α : Type} (f : α → α) :
    ∀ (l : List α) (i j : Nat) (d : α),
      (listUpdate f l i).getD j d =
        if i = j ∧ j < l.length then f (l.getD j d) else l.getD j d := by
  intro l
  induction l with
  | nil => intro i j d; simp [listUpdate]
  | cons x xs ih =>
    intro i j d
    cases i with
    | zero =>
      cases j with
      | zero => simp [listUpdate]
      | succ j => simp [listUpdate]
    | succ i =>
      cases j with
      | zero => simp [listUpdate]
      | succ j => simpa [listUpdate] using ih i j d

/-! ## C8 -/

/-- C8: zone distance is symmetric and zero exactly on equal zones;
`toward` returns none exactly on equal zones, and otherwise steps to an
adjacent zone (one index step in the fixed order) that is exactly one
closer to the destination. -/
theorem C8_zone_distance_toward :
    (∀ a b : Zone, a.distance_to b = b.distance_to a) ∧
    (∀ a b : Zone, a.distance_to b = 0 ↔ a = b) ∧
    (∀ a b : Zone, a.toward b = none ↔ a = b) ∧
    (∀ a b : Zone, a ≠ b →
      ∃ z : Zone, a.toward b = some z ∧
        z.distance_to b + 1 = a.distance_to b ∧
        (z.index = a.index + 1 ∨ z.index + 1 = a.index)) :=
  ⟨by decide, by decide, by decide, by decide⟩

/-- Witness for C8 at a concrete zone pair. -/
theorem C8_zone_distance_toward_witness :
    Zone.side1Ranged ≠ Zone.side2Ranged ∧
    ∃ z : Zone, Zone.side1Ranged.toward Zone.side2Ranged = some z ∧
      z.distance_to Zone.side2Ranged + 1 =
        Zone.side1Ranged.distance_to Zone.side2Ranged ∧
      (z.index = Zone.side1Ranged.index + 1 ∨
        z.index + 1 = Zone.side1Ranged.index) :=
  ⟨by decide, C8_zone_distance_toward.2.2.2 _ _ (by decide)⟩

/-! ## C3 -/

/-- C3 counterexample: a template with fixed hit-point value 0 produces
an actor with `max_hp = 0` that is dead at setup — the minimum-1 floor
does not apply to fixed hit-point values. -/
theorem C3_counterexample :
    ((HpValue.fixed 0).roll rng0).1 = 0 ∧
    (Actor.from_template 0 tmplFixed0 .side1 rng0).1.max_hp = 0 ∧
    (Actor.from_template 0 tmplFixed0 .side1 rng0).1.current_hp = 0 ∧
    (Actor.from_template 0 tmplFixed0 .side1 rng0).1.is_alive = false :=
  ⟨rfl, rfl, rfl, rfl⟩

/-- C3 amended: the minimum-1 floor applies exactly to dice-expression
hit points (including the unparseable-expression fallback of 1); a fixed
integer hit-point value is used verbatim, and `from_template` copies the
rolled value into both `max_hp` and `current_hp`. -/
theorem C3_hp_resolution_amended :
    (∀ (s : String) (r : Rng), 1 ≤ ((HpValue.dice s).roll r).1) ∧
    (∀ (v : Int) (r : Rng), ((HpValue.fixed v).roll r).1 = v) ∧
    (∀ (id : Nat) (t : ActorTemplate) (side : Side) (r : Rng),
      (Actor.from_template id t side r).1.max_hp = (t.hp.roll r).1 ∧
      (Actor.from_template id t side r).1.current_hp = (t.hp.roll r).1) := by
  refine ⟨?_, fun v r => rfl, fun id t side r => ⟨rfl, rfl⟩⟩
  intro s r
  unfold HpValue.roll
  cases h : parse_damage_dice s with
  | none => simp [h]
  | some d => simp [h]

/-! ## C1 -/

/-- C1 counterexample: in Side initiative mode, a move step into a zone
with spare capacity but a living enemy occupant does not succeed — the
mover stays put and no Move event is appended. -/
theorem C1_counterexample :
    simC1.initiative_type = .side ∧
    (simC1.getActor 0).zone = .side1Melee ∧
    (simC1.getActor 0).speed = 1 ∧
    Zone.side1Melee.toward .side2Ranged = some .side2Melee ∧
    simC1.zone_has_capacity .side2Melee 0 = true ∧
    simC1.zone_has_enemies .side2Melee .side1 = true ∧
    (simC1.execute_move 0 .forward).actors = simC1.actors ∧
    (simC1.execute_move 0 .forward).events = simC1.events := by
  refine ⟨rfl, rfl, rfl, by decide, by decide, by decide, by decide, by decide⟩

/-- Every zone reached by the stepping loop is either the starting zone
or was legal to enter. -/
theorem stepLoop_enter_legal (s : CombatSimulator) (aid : Nat) (sd : Side)
    (dest : Zone) :
    ∀ (n : Nat) (cur : Zone),
      stepLoop s aid sd dest n cur = cur ∨
        s.can_enter_zone (stepLoop s aid sd dest n cur) aid sd = true := by
  intro n
  induction n with
  | zero => intro cur; exact Or.inl rfl
  | succ n ih =>
    intro cur
    unfold stepLoop
    cases h : cur.toward dest with
    | none => exact Or.inl rfl
    | some next =>
      by_cases hc : s.can_enter_zone next aid sd = true
      · simp only [hc, if_true]
        rcases ih next with h1 | h1
        · rw [h1]; exact Or.inr hc
        · exact Or.inr h1
      · simp only [hc, if_false]
        exact Or.inl rfl

/-- C1 amended: zone-entry legality is capacity AND no living enemy
occupant in every initiative mode — `can_enter_zone` is the conjunction
by definition, and `execute_move` (the single movement routine shared by
all four modes) only ever leaves an actor in its original zone or in a
zone that passed that conjunctive test. -/
theorem C1_zone_entry_amended :
    (∀ (s : CombatSimulator) (z : Zone) (aid : Nat) (sd : Side),
      s.can_enter_zone z aid sd =
        (s.zone_has_capacity z aid && !(s.zone_has_enemies z sd))) ∧
    (∀ (s : CombatSimulator) (aid : Nat) (dir : MoveDirection),
      ((s.execute_move aid dir).getActor aid).zone = (s.getActor aid).zone ∨
        s.can_enter_zone ((s.execute_move aid dir).getActor aid).zone aid
          (s.getActor aid).side = true) := by
  constructor
  · intro s z aid sd; rfl
  · intro s aid dir
    simp only [CombatSimulator.execute_move]
    split
    case isTrue h =>
      simp only [CombatSimulator.getActor, listUpdate_getD]
      by_cases hlen : aid < s.actors.length
      · simp only [hlen, and_true, if_pos rfl, true_and, if_true]
        rcases stepLoop_enter_legal s aid (s.getActor aid).side _
            (s.getActor aid).speed (s.getActor aid).zone with h1 | h1
        · exact Or.inl h1
        · exact Or.inr h1
      · simp only [hlen, and_false, if_false]
        left
        trivial
    case isFalse h => exact Or.inl rfl

/-! ## C5 -/

/-- C5: the simulator is a deterministic function of the encounter and
the initial RNG state — two runs of the identical encounter from
identical initial RNG states yield identical `CombatResult`s (winner,
round count, event sequence, and final per-actor states alike), there
being no other source of nondeterminism in the engine. -/
theorem C5_determinism (enc : Encounter) (mr : Nat) (r₁ r₂ : Rng)
    (h : r₁ = r₂) : simulateOne enc mr r₁ = simulateOne enc mr r₂ := by
  rw [h]

/-- Witness for C5 on a concrete encounter and seed. -/
theorem C5_determinism_witness :
    simulateOne stallEncounter 2 rng0 = simulateOne stallEncounter 2 rng0 :=
  C5_determinism stallEncounter 2 rng0 rng0 rfl

/-! ## C2 -/

/-- A side-1 attacker at the side-1 melee zone with a ranged weapon and
an explicit nearest-enemy attack rule. -/
def rangedAttacker : Actor :=
  ⟨0, "a", .side1, 10, 10, 10, 0, ⟨1, 6, 0⟩, 1, .ranged, .side1Melee, 0,
   [⟨"attack", none, some "nearest_enemy"⟩]⟩

/-- Roster for the C2 counterexample: the far enemy (distance 3) comes
first in roster order, the near enemy (distance 1) second; both are
living and within the attacker's weapon range. -/
def rosterC2 : List Actor :=
  [rangedAttacker,
   meleeActor 1 .side2 .side2Ranged,
   meleeActor 2 .side2 .side2Melee]

/-- C2 counterexample: with target expression `"nearest_enemy"` the
attack entry selects actor 1 at zone distance 3 — the first in-range
enemy in roster order — although living enemy 2 is in range at the
strictly smaller distance 1. -/
theorem C2_counterexample :
    (execute_apl rangedAttacker rosterC2 rng0).1.attack_action =
      .attack 1 ∧
    rangedAttacker.zone.distance_to (meleeActor 1 .side2 .side2Ranged).zone = 3 ∧
    rangedAttacker.zone.distance_to (meleeActor 2 .side2 .side2Melee).zone = 1 ∧
    (meleeActor 2 .side2 .side2Melee).is_alive = true ∧
    rangedAttacker.zone.distance_to (meleeActor 2 .side2 .side2Melee).zone ≤
      rangedAttacker.range.max_distance := by
  refine ⟨by decide, by decide, by decide, by decide, by decide⟩

/-- No attack intention is ever produced while no living enemy is within
weapon range: the scanning loop's attack arm is gated on
`has_enemy_in_range`. -/
theorem aplLoop_no_attack_out_of_range (actor : Actor)
    (actors : List Actor) (h : has_enemy_in_range actor actors = false) :
    ∀ (entries : List AplEntry) (mv : MoveAction) (r : Rng),
      (aplLoop actor actors entries mv .noAttack r).1.attack_action =
        .noAttack := by
  intro entries
  induction entries with
  | nil => intro mv r; rfl
  | cons entry rest ih =>
    intro mv r
    have hstep : (aplStep actor actors entry mv .noAttack r).2.1 = .noAttack := by
      unfold aplStep
      by_cases ha : strToLower entry.action = "attack"
      · simp [ha, h]
      · by_cases hm : strToLower entry.action = "move"
        · rw [if_neg ha, if_pos hm]
          dsimp only
          split
          · split
            · rfl
            · split
              · rfl
              · split <;> rfl
          · rfl
        · rw [if_neg ha, if_neg hm]
    simp only [aplLoop]
    split
    · exact ih mv r
    · rw [hstep]
      simp only [AttackAction.isSet, Bool.and_false]
      rw [if_neg (by simp)]
      exact ih _ _

/-- C2 amended: when an attack entry fires with a target expression other
than the lowest-HP and random forms (so `"nearest_enemy"`, `"nearest"`,
and anything unrecognized), the selected attack target is the FIRST
living enemy within weapon range in roster order — not necessarily one
at minimum zone distance; and when no living enemy is within weapon
range, no attack intention is produced at all. -/
theorem C2_attack_target_amended :
    (∀ (actor : Actor) (actors : List Actor) (t : String) (r : Rng),
      strToLower t ∉
        ["lowest_hp_enemy", "lowest_hp", "weakest", "random_enemy", "random"] →
      (selectAttackTarget actor actors t r).1 =
        (enemies_in_range actor actors).head?.map (·.id)) ∧
    (∀ (actor : Actor) (actors : List Actor) (r : Rng),
      has_enemy_in_range actor actors = false →
      (execute_apl actor actors r).1.attack_action = .noAttack) := by
  constructor
  · intro actor actors t r h1
    simp only [List.mem_cons, List.not_mem_nil, or_false, not_or] at h1
    obtain ⟨n1, n2, n3, n4, n5⟩ := h1
    unfold selectAttackTarget
    rw [if_neg (by tauto), if_neg (by tauto)]
  · intro actor actors r h
    unfold execute_apl
    exact aplLoop_no_attack_out_of_range actor actors h _ _ _

/-- Witness for C2's amended statement: the `"nearest_enemy"` selection
on the concrete roster, and the empty-attack guarantee for an actor with
no enemy in range. -/
theorem C2_attack_target_amended_witness :
    (selectAttackTarget rangedAttacker rosterC2 "nearest_enemy" rng0).1 =
      (enemies_in_range rangedAttacker rosterC2).head?.map (·.id) ∧
    (execute_apl (meleeActor 0 .side1 .side1Ranged)
        [meleeActor 0 .side1 .side1Ranged] rng0).1.attack_action = .noAttack :=
  ⟨C2_attack_target_amended.1 rangedAttacker rosterC2 "nearest_enemy" rng0
      (by decide),
   C2_attack_target_amended.2 (meleeActor 0 .side1 .side1Ranged)
      [meleeActor 0 .side1 .side1Ranged] rng0 (by decide)⟩

/-! ## C4 and C10: attack resolution -/

/-- An out-of-range attack request resolves to a no-op. -/
theorem execute_attack_not_in_range (s : CombatSimulator) (aid tid : Nat)
    (r : Rng) (h : (s.getActor aid).can_attack (s.getActor tid) = false) :
    s.execute_attack aid tid r = (s, r) := by
  unfold CombatSimulator.execute_attack
  simp [h]

/-- `can_attack` is exactly the range comparison. -/
theorem can_attack_false_iff (a b : Actor) :
    a.can_attack b = false ↔
      a.range.max_distance < a.zone.distance_to b.zone := by
  simp [Actor.can_attack, Nat.lt_iff_add_one_le]

/-- Two melee combatants five zones apart: out of range. -/
def simFar : CombatSimulator :=
  ⟨[meleeActor 0 .side1 .side1Ranged, meleeActor 1 .side2 .side2Ranged],
   [], 1, 100, ⟨none, 3, 3⟩, .side, ⟨1, 20, 0⟩, []⟩

/-- C4: attack resolution re-checks range at resolution time — when the
target's zone distance exceeds the attacker's maximum engagement
distance, `execute_attack` appends no event and changes no state (so no
Attack event at an illegal distance is ever emitted: every event this
sole Attack-event producer appends comes with the range check passed). -/
theorem C4_attack_range_recheck (s : CombatSimulator) (aid tid : Nat)
    (r : Rng) :
    ((s.getActor aid).range.max_distance <
        (s.getActor aid).zone.distance_to (s.getActor tid).zone →
      s.execute_attack aid tid r = (s, r)) ∧
    ((s.execute_attack aid tid r).1.events ≠ s.events →
      (s.getActor aid).zone.distance_to (s.getActor tid).zone ≤
        (s.getActor aid).range.max_distance) := by
  constructor
  · intro hgt
    exact execute_attack_not_in_range s aid tid r
      ((can_attack_false_iff _ _).mpr hgt)
  · intro hne
    by_cases hle : (s.getActor aid).zone.distance_to (s.getActor tid).zone ≤
        (s.getActor aid).range.max_distance
    · exact hle
    · exfalso
      apply hne
      rw [execute_attack_not_in_range s aid tid r
        ((can_attack_false_iff _ _).mpr (by omega))]

/-- Witness for C4: a concrete out-of-range attack leaves the state
untouched, and a concrete event-appending attack was in range. -/
theorem C4_attack_range_recheck_witness :
    simFar.execute_attack 0 1 rng0 = (simFar, rng0) ∧
    ((simC1.getActor 0).zone.distance_to (simC1.getActor 1).zone ≤
      (simC1.getActor 0).range.max_distance) :=
  ⟨(C4_attack_range_recheck simFar 0 1 rng0).1 (by decide),
   (C4_attack_range_recheck simC1 0 1 rng0).2 (by decide)⟩

/-- Statement helper: the attack roll of `execute_attack` — the d20 draw
plus the attacker's attack bonus. -/
def attackRoll (s : CombatSimulator) (aid : Nat) (r : Rng) : Int :=
  ((r.genRange 1 20).1 : Int) + (s.getActor aid).attack_bonus

/-- Statement helper: the expected post-state of a missed attack —
everything unchanged except exactly one appended Attack event with
`hit = false` and `damage = 0`. -/
def missedAttackState (s : CombatSimulator) (aid tid : Nat) (r : Rng) :
    CombatSimulator :=
  { s with events := s.events ++
      [⟨s.round, aid, (s.getActor aid).name,
        .attack tid (s.getActor tid).name (attackRoll s aid r)
          (s.getActor tid).ac false 0⟩] }

/-- Statement helper: the damage roll consumed on a hit. -/
def hitDamage (s : CombatSimulator) (aid : Nat) (r : Rng) : Int :=
  ((s.getActor aid).damage.roll (r.genRange 1 20).2).1

/-- Statement helper: the RNG state after a hit's damage roll. -/
def hitRng (s : CombatSimulator) (aid : Nat) (r : Rng) : Rng :=
  ((s.getActor aid).damage.roll (r.genRange 1 20).2).2

/-- Statement helper: the expected post-state of a hit before any Death
event — target's current hit points reduced by the damage, one appended
Attack event with `hit = true`. -/
def hitAttackState (s : CombatSimulator) (aid tid : Nat) (r : Rng) :
    CombatSimulator :=
  { s with
    actors := listUpdate
      (fun a => { a with current_hp := a.current_hp - hitDamage s aid r })
      s.actors tid,
    events := s.events ++
      [⟨s.round, aid, (s.getActor aid).name,
        .attack tid (s.getActor tid).name (attackRoll s aid r)
          (s.getActor tid).ac true (hitDamage s aid r)⟩] }

/-- C10: a missed in-range attack (roll strictly below the target's AC)
appends exactly one Attack event with `hit = false` and `damage = 0` and
changes nothing else — no hit points, no zones, no Death event; and on a
hit, a Death event is appended exactly when the damage leaves the target
at 0 or below, immediately after the Attack event. -/
theorem C10_miss_frame_and_death (s : CombatSimulator) (aid tid : Nat)
    (r : Rng) :
    ((s.getActor aid).can_attack (s.getActor tid) = true →
      attackRoll s aid r < (s.getActor tid).ac →
      s.execute_attack aid tid r =
        (missedAttackState s aid tid r, (r.genRange 1 20).2)) ∧
    ((s.getActor aid).can_attack (s.getActor tid) = true →
      (s.getActor tid).ac ≤ attackRoll s aid r →
      s.execute_attack aid tid r =
        (if ((hitAttackState s aid tid r).getActor tid).is_alive
         then hitAttackState s aid tid r
         else { hitAttackState s aid tid r with
                events := (hitAttackState s aid tid r).events ++
                  [⟨s.round, tid, (s.getActor tid).name, .death (some aid)⟩] },
         hitRng s aid r)) := by
  constructor
  · intro hca hlt
    have hnot : ¬(((r.genRange 1 20).1 : Int) + (s.getActor aid).attack_bonus ≥
        (s.getActor tid).ac) := by
      unfold attackRoll at hlt
      omega
    unfold CombatSimulator.execute_attack missedAttackState attackRoll
    simp [hca, hnot]
  · intro hca hge
    have hyes : ((r.genRange 1 20).1 : Int) + (s.getActor aid).attack_bonus ≥
        (s.getActor tid).ac := by
      unfold attackRoll at hge
      omega
    by_cases halive : ((hitAttackState s aid tid r).getActor tid).is_alive = true
    · unfold CombatSimulator.execute_attack
      unfold hitAttackState hitDamage attackRoll at halive
      unfold hitAttackState hitDamage hitRng attackRoll
      rw [if_neg (by simp [hca])]
      simp only [if_pos hyes, decide_eq_true hyes]
      rw [if_neg (by simp [halive]), if_pos halive]
    · unfold CombatSimulator.execute_attack
      unfold hitAttackState hitDamage attackRoll at halive
      unfold hitAttackState hitDamage hitRng attackRoll
      have hf := Bool.not_eq_true _ ▸ halive
      rw [if_neg (by simp [hca])]
      simp only [if_pos hyes, decide_eq_true hyes]
      rw [if_pos (by simp [hf]), if_neg halive]

/-- A one-hit-point, zero-AC target adjacent to the attacker. -/
def simKill : CombatSimulator :=
  ⟨[meleeActor 0 .side1 .side1Melee,
    ⟨1, "w", .side2, 1, 1, 0, 0, ⟨1, 6, 0⟩, 1, .melee, .side2Melee, 0, []⟩],
   [], 1, 100, ⟨none, 3, 3⟩, .side, ⟨1, 20, 0⟩, []⟩

/-- Witness for C10: a concrete miss produces exactly the missed-attack
state, and a concrete lethal hit appends the Attack event plus the Death
event. -/
theorem C10_miss_frame_and_death_witness :
    simC1.execute_attack 0 1 rng0 =
      (missedAttackState simC1 0 1 rng0, (rng0.genRange 1 20).2) ∧
    (simKill.execute_attack 0 1 rng0).1.events.length = 2 := by
  constructor
  · exact (C10_miss_frame_and_death simC1 0 1 rng0).1 (by decide) (by decide)
  · have h := (C10_miss_frame_and_death simKill 0 1 rng0).2 (by decide) (by decide)
    rw [h]
    decide

/-! ## C7 -/

/-- The literal condition forms recognized by `evaluate_condition`. -/
def conditionLiterals : List String :=
  ["true", "", "false", "enemy.in_range", "enemy_in_range",
   "!enemy.in_range", "!enemy_in_range", "not enemy.in_range"]

/-- C7: the interpreter is fail-open — a condition matching none of the
recognized forms (no literal, and any `<`/`>` comparison has an
unrecognized left operand) evaluates to `true`; an unparseable numeric
right-hand side of a comparison — whether the `<` or the `>` form — is
treated as 0; an unparseable initiative dice expression falls back to
`1d20+0`; an unparseable hit-point dice expression resolves to 1. -/
theorem C7_fail_open (actor : Actor) (actors : List Actor) :
    (∀ cond : String,
      strToLower (strTrim cond) ∉ conditionLiterals →
      (∀ lhs rhs : String,
        strSplitChar (strToLower (strTrim cond)) '<' = [lhs, rhs] →
        evaluate_numeric (strTrim lhs) actor actors = none) →
      (strContains (strToLower (strTrim cond)) '<' = false →
        ∀ lhs rhs : String,
        strSplitChar (strToLower (strTrim cond)) '>' = [lhs, rhs] →
        evaluate_numeric (strTrim lhs) actor actors = none) →
      evaluate_condition cond actor actors = true) ∧
    (∀ (cond lhs rhs : String) (v : ℚ),
      strToLower (strTrim cond) ∉ conditionLiterals →
      strContains (strToLower (strTrim cond)) '<' = true →
      strSplitChar (strToLower (strTrim cond)) '<' = [lhs, rhs] →
      parseF64 (strTrim rhs) = none →
      evaluate_numeric (strTrim lhs) actor actors = some v →
      evaluate_condition cond actor actors = decide (v < 0)) ∧
    (∀ (cond lhs rhs : String) (v : ℚ),
      strToLower (strTrim cond) ∉ conditionLiterals →
      strContains (strToLower (strTrim cond)) '<' = false →
      strContains (strToLower (strTrim cond)) '>' = true →
      strSplitChar (strToLower (strTrim cond)) '>' = [lhs, rhs] →
      parseF64 (strTrim rhs) = none →
      evaluate_numeric (strTrim lhs) actor actors = some v →
      evaluate_condition cond actor actors = decide (v > 0)) ∧
    (∀ (enc : Encounter) (mr : Nat) (r : Rng),
      parse_damage_dice enc.initiative.dice = none →
      ((CombatSimulator.new enc mr r).1).initiative_dice = ⟨1, 20, 0⟩) ∧
    (∀ (s : String) (r : Rng),
      parse_damage_dice s = none → ((HpValue.dice s).roll r).1 = 1) := by
  refine ⟨?_, ?_, ?_, ?_, ?_⟩
  · intro cond hlit h2 h3
    simp only [conditionLiterals, List.mem_cons, List.not_mem_nil, or_false,
      not_or] at hlit
    obtain ⟨n1, n2, n3, n4, n5, n6, n7, n8⟩ := hlit
    unfold evaluate_condition
    rw [if_neg (by tauto), if_neg n3, if_neg (by tauto), if_neg (by tauto)]
    by_cases hc : strContains (strToLower (strTrim cond)) '<' = true
    · rw [if_pos hc]
      split
      · rename_i lhs rhs heq
        rw [h2 lhs rhs heq]
      · rfl
    · rw [if_neg hc]
      by_cases hg : strContains (strToLower (strTrim cond)) '>' = true
      · rw [if_pos hg]
        split
        · rename_i lhs rhs heq
          rw [h3 (by revert hc; cases strContains (strToLower (strTrim cond)) '<' <;> simp)
            lhs rhs heq]
        · rfl
      · rw [if_neg hg]
  · intro cond lhs rhs v hlit hc hsp hparse hnum
    simp only [conditionLiterals, List.mem_cons, List.not_mem_nil, or_false,
      not_or] at hlit
    obtain ⟨n1, n2, n3, n4, n5, n6, n7, n8⟩ := hlit
    unfold evaluate_condition
    rw [if_neg (by tauto), if_neg n3, if_neg (by tauto), if_neg (by tauto),
      if_pos hc]
    split
    · rename_i lhs' rhs' heq
      rw [heq] at hsp
      injection hsp with e1 hsp
      injection hsp with e2 _
      subst e1; subst e2
      rw [hnum, hparse]
      rfl
    · rename_i hne
      exact absurd hsp (hne lhs rhs)
  · intro cond lhs rhs v hlit hclt hcgt hsp hparse hnum
    simp only [conditionLiterals, List.mem_cons, List.not_mem_nil, or_false,
      not_or] at hlit
    obtain ⟨n1, n2, n3, n4, n5, n6, n7, n8⟩ := hlit
    unfold evaluate_condition
    rw [if_neg (by tauto), if_neg n3, if_neg (by tauto), if_neg (by tauto),
      if_neg (by simp [hclt]), if_pos hcgt]
    split
    · rename_i lhs' rhs' heq
      rw [heq] at hsp
      injection hsp with e1 hsp
      injection hsp with e2 _
      subst e1; subst e2
      rw [hnum, hparse]
      rfl
    · rename_i hne
      exact absurd hsp (hne lhs rhs)
  · intro enc mr r hparse
    unfold CombatSimulator.new
    rw [hparse]
    rfl
  · intro s r hparse
    simp [HpValue.roll, hparse]

/-- An encounter whose initiative dice expression does not parse. -/
def badDiceEncounter : Encounter :=
  ⟨none, [stallTemplate], [stallTemplate], 1, ⟨none, 3, 3⟩,
   ⟨.side, "garbage", []⟩⟩

/-- Witness for C7: a comparison with an unrecognized left operand is
true; unparseable right-hand sides of both a `<` and a `>` comparison
compare against 0; `"garbage"` initiative dice fall back to 1d20+0;
`"garbage"` hit-point dice resolve to 1. -/
theorem C7_fail_open_witness :
    evaluate_condition "self.mana < 10" (meleeActor 0 .side1 .side1Melee)
        [meleeActor 0 .side1 .side1Melee] = true ∧
    evaluate_condition "self.hp < banana" (meleeActor 0 .side1 .side1Melee)
        [meleeActor 0 .side1 .side1Melee] = decide ((10 : ℚ) < 0) ∧
    evaluate_condition "self.hp > banana" (meleeActor 0 .side1 .side1Melee)
        [meleeActor 0 .side1 .side1Melee] = decide ((10 : ℚ) > 0) ∧
    ((CombatSimulator.new badDiceEncounter 100 rng0).1).initiative_dice =
      ⟨1, 20, 0⟩ ∧
    ((HpValue.dice "garbage").roll rng0).1 = 1 := by
  refine ⟨?_, ?_, ?_, ?_, ?_⟩
  · refine (C7_fail_open (meleeActor 0 .side1 .side1Melee)
      [meleeActor 0 .side1 .side1Melee]).1 "self.mana < 10" (by decide) ?_ ?_
    · intro lhs rhs h
      have hconc : strSplitChar (strToLower (strTrim "self.mana < 10")) '<' =
          ["self.mana ", " 10"] := by decide
      rw [hconc] at h
      injection h with e1 h'
      subst e1
      decide
    · intro hcf
      exact absurd hcf (by decide)
  · exact (C7_fail_open (meleeActor 0 .side1 .side1Melee)
      [meleeActor 0 .side1 .side1Melee]).2.1 "self.hp < banana" "self.hp "
      " banana" 10 (by decide) (by decide) (by decide) (by decide) (by decide)
  · exact (C7_fail_open (meleeActor 0 .side1 .side1Melee)
      [meleeActor 0 .side1 .side1Melee]).2.2.1 "self.hp > banana" "self.hp "
      " banana" 10 (by decide) (by decide) (by decide) (by decide) (by decide)
      (by decide)
  · exact (C7_fail_open (meleeActor 0 .side1 .side1Melee)
      [meleeActor 0 .side1 .side1Melee]).2.2.2.1 badDiceEncounter 100 rng0
      (by decide)
  · exact (C7_fail_open (meleeActor 0 .side1 .side1Melee)
      [meleeActor 0 .side1 .side1Melee]).2.2.2.2 "garbage" rng0 (by decide)

/-! ## Preservation machinery shared by the scheduling claims

`stepOk s s'` records what every per-turn primitive preserves: the round
counter, the round cap, the roster length, and every roster slot's id. -/

def stepOk (s s' : CombatSimulator) : Prop :=
  s'.round = s.round ∧ s'.max_rounds = s.max_rounds ∧
  s'.actors.length = s.actors.length ∧
  ∀ i : Nat, (s'.actors.getD i default).id = (s.actors.getD i default).id

theorem stepOk_refl (s : CombatSimulator) : stepOk s s :=
  ⟨rfl, rfl, rfl, fun _ => rfl⟩

theorem stepOk_trans {s s' s'' : CombatSimulator} (h1 : stepOk s s')
    (h2 : stepOk s' s'') : stepOk s s'' :=
  ⟨h2.1.trans h1.1, h2.2.1.trans h1.2.1, h2.2.2.1.trans h1.2.2.1,
   fun i => (h2.2.2.2 i).trans (h1.2.2.2 i)⟩

theorem listUpdate_length {α : Type} (f : α → α) :
    ∀ (l : List α) (i : Nat), (listUpdate f l i).length = l.length := by
  intro l
  induction l with
  | nil => intro i; rfl
  | cons x xs ih =>
    intro i
    cases i with
    | zero => rfl
    | succ i => simpa [listUpdate] using ih i

/-- A state whose actors are an id-preserving `listUpdate` of the old
roster (round, cap and events aside) satisfies `stepOk`. -/
theorem stepOk_of_update {s s' : CombatSimulator} (f : Actor → Actor)
    (k : Nat) (hf : ∀ a, (f a).id = a.id)
    (h1 : s'.round = s.round) (h2 : s'.max_rounds = s.max_rounds)
    (hact : s'.actors = listUpdate f s.actors k) : stepOk s s' := by
  refine ⟨h1, h2, by rw [hact, listUpdate_length], fun i => ?_⟩
  rw [hact, listUpdate_getD]
  split
  · rw [hf]
  · rfl

/-- A state with the old roster unchanged satisfies `stepOk`. -/
theorem stepOk_of_actors_eq {s s' : CombatSimulator}
    (h1 : s'.round = s.round) (h2 : s'.max_rounds = s.max_rounds)
    (hact : s'.actors = s.actors) : stepOk s s' :=
  ⟨h1, h2, by rw [hact], fun i => by rw [hact]⟩

theorem execute_move_stepOk (s : CombatSimulator) (aid : Nat)
    (dir : MoveDirection) : stepOk s (s.execute_move aid dir) := by
  cases dir <;>
    (unfold CombatSimulator.execute_move
     dsimp only
     split
     · refine stepOk_of_update _ aid ?_ rfl rfl rfl
       exact fun a => rfl
     · exact stepOk_refl s)

theorem execute_attack_stepOk (s : CombatSimulator) (aid tid : Nat)
    (r : Rng) : stepOk s (s.execute_attack aid tid r).1 := by
  unfold CombatSimulator.execute_attack
  dsimp only
  repeat' split
  all_goals
    first
    | exact stepOk_refl s
    | exact stepOk_of_actors_eq rfl rfl rfl
    | (refine stepOk_of_update _ tid ?_ rfl rfl rfl
       exact fun a => rfl)

theorem execute_full_turn_stepOk (s : CombatSimulator) (aid : Nat)
    (r : Rng) : stepOk s (s.execute_full_turn aid r).1 := by
  unfold CombatSimulator.execute_full_turn
  split
  · exact stepOk_refl s
  · rcases hp1 : execute_apl (s.getActor aid) s.actors r with ⟨ta, r1⟩
    dsimp only
    rcases ta with ⟨mv, atk⟩
    cases mv with
    | move d =>
      dsimp only
      rcases hp2 : execute_apl ((s.execute_move aid d).getActor aid)
          (s.execute_move aid d).actors r1 with ⟨ta2, r2⟩
      dsimp only
      rcases ta2 with ⟨mv2, atk2⟩
      cases atk2 with
      | attack tid =>
        exact stepOk_trans (execute_move_stepOk s aid d)
          (execute_attack_stepOk _ aid tid r2)
      | noAttack =>
        exact stepOk_trans (execute_move_stepOk s aid d) (stepOk_refl _)
    | noMove =>
      dsimp only
      rcases hp2 : execute_apl (s.getActor aid) s.actors r1 with ⟨ta2, r2⟩
      dsimp only
      rcases ta2 with ⟨mv2, atk2⟩
      cases atk2 with
      | attack tid => exact execute_attack_stepOk s aid tid r2
      | noAttack => exact stepOk_refl s

theorem execute_movement_only_stepOk (s : CombatSimulator) (aid : Nat)
    (r : Rng) : stepOk s (s.execute_movement_only aid r).1 := by
  unfold CombatSimulator.execute_movement_only
  split
  · exact stepOk_refl s
  · rcases hp1 : execute_apl (s.getActor aid) s.actors r with ⟨ta, r1⟩
    dsimp only
    rcases ta with ⟨mv, atk⟩
    cases mv with
    | move d => exact execute_move_stepOk s aid d
    | noMove => exact stepOk_refl s

theorem execute_attack_only_stepOk (s : CombatSimulator) (aid : Nat)
    (r : Rng) : stepOk s (s.execute_attack_only aid r).1 := by
  unfold CombatSimulator.execute_attack_only
  split
  · exact stepOk_refl s
  · rcases hp1 : execute_apl (s.getActor aid) s.actors r with ⟨ta, r1⟩
    dsimp only
    rcases ta with ⟨mv, atk⟩
    cases atk with
    | attack tid => exact execute_attack_stepOk s aid tid r1
    | noAttack => exact stepOk_refl s

theorem turnsLoop_stepOk :
    ∀ (ids : List Nat) (s : CombatSimulator) (r : Rng),
      stepOk s (turnsLoop ids s r).1 := by
  intro ids
  induction ids with
  | nil => intro s r; exact stepOk_refl s
  | cons id rest ih =>
    intro s r
    unfold turnsLoop
    rcases hp : s.execute_full_turn id r with ⟨s1, r1⟩
    have h1 := execute_full_turn_stepOk s id r
    rw [hp] at h1
    dsimp only
    split
    · exact h1
    · exact stepOk_trans h1 (ih s1 r1)

theorem turnsLoopInd_stepOk :
    ∀ (ids : List Nat) (s : CombatSimulator) (r : Rng),
      stepOk s (turnsLoopInd ids s r).1 := by
  intro ids
  induction ids with
  | nil => intro s r; exact stepOk_refl s
  | cons id rest ih =>
    intro s r
    unfold turnsLoopInd
    split
    · exact ih s r
    · rcases hp : s.execute_full_turn id r with ⟨s1, r1⟩
      have h1 := execute_full_turn_stepOk s id r
      rw [hp] at h1
      dsimp only
      split
      · exact h1
      · exact stepOk_trans h1 (ih s1 r1)

theorem moveLoop_stepOk :
    ∀ (ids : List Nat) (s : CombatSimulator) (r : Rng),
      stepOk s (moveLoop ids s r).1 := by
  intro ids
  induction ids with
  | nil => intro s r; exact stepOk_refl s
  | cons id rest ih =>
    intro s r
    unfold moveLoop
    rcases hp : s.execute_movement_only id r with ⟨s1, r1⟩
    have h1 := execute_movement_only_stepOk s id r
    rw [hp] at h1
    dsimp only
    exact stepOk_trans h1 (ih s1 r1)

theorem attackLoop_stepOk (wr : WeaponRange) :
    ∀ (ids : List Nat) (s : CombatSimulator) (r : Rng),
      stepOk s (attackLoop wr ids s r).1 := by
  intro ids
  induction ids with
  | nil => intro s r; exact stepOk_refl s
  | cons id rest ih =>
    intro s r
    unfold attackLoop
    split
    · rcases hp : s.execute_attack_only id r with ⟨s1, r1⟩
      have h1 := execute_attack_only_stepOk s id r
      rw [hp] at h1
      dsimp only
      split
      · exact h1
      · exact stepOk_trans h1 (ih s1 r1)
    · exact ih s r

theorem sidePass_stepOk (side : Side) (s : CombatSimulator) (r : Rng) :
    stepOk s (sidePass side s r).1 := by
  unfold sidePass
  rcases hp : s.get_shuffled_side_order side r with ⟨order, r1⟩
  dsimp only
  exact turnsLoop_stepOk order s r1

theorem run_round_side_stepOk (s : CombatSimulator) (r : Rng) :
    stepOk s (s.run_round_side r).1 := by
  unfold CombatSimulator.run_round_side
  rcases hb : r.genBool with ⟨b, r0⟩
  dsimp only
  rcases hp1 : sidePass (if b = true then Side.side1 else Side.side2) s r0
    with ⟨s1, r1, ab⟩
  have h1 := sidePass_stepOk (if b = true then Side.side1 else Side.side2) s r0
  rw [hp1] at h1
  dsimp only
  split
  · exact h1
  · rcases hp2 : sidePass
        (if b = true then Side.side1 else Side.side2).opposite s1 r1
      with ⟨s2, r2, ab2⟩
    have h2 := sidePass_stepOk
      (if b = true then Side.side1 else Side.side2).opposite s1 r1
    rw [hp2] at h2
    exact stepOk_trans h1 h2

theorem run_round_individual_stepOk (s : CombatSimulator) (r : Rng) :
    stepOk s (s.run_round_individual r).1 :=
  turnsLoopInd_stepOk _ s _

theorem movePassSide_stepOk (side : Side) (s : CombatSimulator) (r : Rng) :
    stepOk s (movePassSide side s r).1 := by
  unfold movePassSide
  rcases hp : s.get_shuffled_side_order side r with ⟨order, r1⟩
  dsimp only
  exact moveLoop_stepOk order s r1

theorem attackPassSide_stepOk (side : Side) (wr : WeaponRange)
    (s : CombatSimulator) (r : Rng) :
    stepOk s (attackPassSide side wr s r).1 := by
  unfold attackPassSide
  rcases hp : s.get_shuffled_side_order side r with ⟨order, r1⟩
  dsimp only
  exact attackLoop_stepOk wr order s r1

theorem phaseStepSide_stepOk (first : Side) (p : Phase)
    (s : CombatSimulator) (r : Rng) :
    stepOk s (phaseStepSide first p s r).1 := by
  cases p with
  | movement =>
    unfold phaseStepSide
    rcases hp1 : movePassSide first s r with ⟨s1, r1⟩
    have h1 := movePassSide_stepOk first s r
    rw [hp1] at h1
    dsimp only
    rcases hp2 : movePassSide first.opposite s1 r1 with ⟨s2, r2⟩
    have h2 := movePassSide_stepOk first.opposite s1 r1
    rw [hp2] at h2
    exact stepOk_trans h1 h2
  | rangedPhase =>
    unfold phaseStepSide
    rcases hp1 : attackPassSide first .ranged s r with ⟨s1, r1, ab⟩
    have h1 := attackPassSide_stepOk first .ranged s r
    rw [hp1] at h1
    dsimp only
    split
    · exact h1
    · rcases hp2 : attackPassSide first.opposite .ranged s1 r1
        with ⟨s2, r2, ab2⟩
      have h2 := attackPassSide_stepOk first.opposite .ranged s1 r1
      rw [hp2] at h2
      exact stepOk_trans h1 h2
  | reachPhase =>
    unfold phaseStepSide
    rcases hp1 : attackPassSide first .reach s r with ⟨s1, r1, ab⟩
    have h1 := attackPassSide_stepOk first .reach s r
    rw [hp1] at h1
    dsimp only
    split
    · exact h1
    · rcases hp2 : attackPassSide first.opposite .reach s1 r1
        with ⟨s2, r2, ab2⟩
      have h2 := attackPassSide_stepOk first.opposite .reach s1 r1
      rw [hp2] at h2
      exact stepOk_trans h1 h2
  | meleePhase =>
    unfold phaseStepSide
    rcases hp1 : attackPassSide first .melee s r with ⟨s1, r1, ab⟩
    have h1 := attackPassSide_stepOk first .melee s r
    rw [hp1] at h1
    dsimp only
    split
    · exact h1
    · rcases hp2 : attackPassSide first.opposite .melee s1 r1
        with ⟨s2, r2, ab2⟩
      have h2 := attackPassSide_stepOk first.opposite .melee s1 r1
      rw [hp2] at h2
      exact stepOk_trans h1 h2

theorem phasesLoopSide_stepOk (first : Side) :
    ∀ (ps : List Phase) (s : CombatSimulator) (r : Rng),
      stepOk s (phasesLoopSide first ps s r).1 := by
  intro ps
  induction ps with
  | nil => intro s r; exact stepOk_refl s
  | cons p rest ih =>
    intro s r
    unfold phasesLoopSide
    rcases hp : phaseStepSide first p s r with ⟨s1, r1, ab⟩
    have h1 := phaseStepSide_stepOk first p s r
    rw [hp] at h1
    dsimp only
    split
    · exact h1
    · split
      · exact h1
      · exact stepOk_trans h1 (ih s1 r1)

theorem run_round_side_phases_stepOk (s : CombatSimulator) (r : Rng) :
    stepOk s (s.run_round_side_phases r).1 := by
  unfold CombatSimulator.run_round_side_phases
  rcases hb : r.genBool with ⟨b, r0⟩
  dsimp only
  exact phasesLoopSide_stepOk _ s.phases s r0

theorem movePassOrder_stepOk :
    ∀ (ids : List Nat) (s : CombatSimulator) (r : Rng),
      stepOk s (movePassOrder ids s r).1 := by
  intro ids
  induction ids with
  | nil => intro s r; exact stepOk_refl s
  | cons id rest ih =>
    intro s r
    unfold movePassOrder
    split
    · rcases hp : s.execute_movement_only id r with ⟨s1, r1⟩
      have h1 := execute_movement_only_stepOk s id r
      rw [hp] at h1
      dsimp only
      exact stepOk_trans h1 (ih s1 r1)
    · exact ih s r

theorem attackPassOrder_stepOk (wr : WeaponRange) :
    ∀ (ids : List Nat) (s : CombatSimulator) (r : Rng),
      stepOk s (attackPassOrder wr ids s r).1 := by
  intro ids
  induction ids with
  | nil => intro s r; exact stepOk_refl s
  | cons id rest ih =>
    intro s r
    unfold attackPassOrder
    split
    · rcases hp : s.execute_attack_only id r with ⟨s1, r1⟩
      have h1 := execute_attack_only_stepOk s id r
      rw [hp] at h1
      dsimp only
      split
      · exact h1
      · exact stepOk_trans h1 (ih s1 r1)
    · exact ih s r

theorem phasesLoopInd_stepOk (order : List Nat) :
    ∀ (ps : List Phase) (s : CombatSimulator) (r : Rng),
      stepOk s (phasesLoopInd order ps s r).1 := by
  intro ps
  induction ps with
  | nil => intro s r; exact stepOk_refl s
  | cons p rest ih =>
    intro s r
    cases p with
    | movement =>
      unfold phasesLoopInd
      rcases hm : movePassOrder order s r with ⟨s1, r1⟩
      have h1 := movePassOrder_stepOk order s r
      rw [hm] at h1
      try dsimp only
      split
      · exact h1
      · split
        · exact h1
        · exact stepOk_trans h1 (ih s1 r1)
    | rangedPhase =>
      unfold phasesLoopInd
      rcases ha : attackPassOrder .ranged order s r with ⟨s1, r1, ab⟩
      have h1 := attackPassOrder_stepOk .ranged order s r
      rw [ha] at h1
      try dsimp only
      split
      · exact h1
      · split
        · exact h1
        · exact stepOk_trans h1 (ih s1 r1)
    | reachPhase =>
      unfold phasesLoopInd
      rcases ha : attackPassOrder .reach order s r with ⟨s1, r1, ab⟩
      have h1 := attackPassOrder_stepOk .reach order s r
      rw [ha] at h1
      try dsimp only
      split
      · exact h1
      · split
        · exact h1
        · exact stepOk_trans h1 (ih s1 r1)
    | meleePhase =>
      unfold phasesLoopInd
      rcases ha : attackPassOrder .melee order s r with ⟨s1, r1, ab⟩
      have h1 := attackPassOrder_stepOk .melee order s r
      rw [ha] at h1
      try dsimp only
      split
      · exact h1
      · split
        · exact h1
        · exact stepOk_trans h1 (ih s1 r1)

theorem run_round_individual_phases_stepOk (s : CombatSimulator) (r : Rng) :
    stepOk s (s.run_round_individual_phases r).1 :=
  phasesLoopInd_stepOk _ s.phases s _

theorem roundStep_stepOk (s : CombatSimulator) (r : Rng) :
    stepOk s (s.roundStep r).1 := by
  unfold CombatSimulator.roundStep
  cases h : s.initiative_type with
  | side => exact run_round_side_stepOk s r
  | individual => exact run_round_individual_stepOk s r
  | sidePhases => exact run_round_side_phases_stepOk s r
  | individualPhases => exact run_round_individual_phases_stepOk s r

/-! ## The round loop: C6 -/

theorem runLoop_max :
    ∀ (fuel : Nat) (s : CombatSimulator) (r : Rng),
      (runLoop fuel s r).1.max_rounds = s.max_rounds := by
  intro fuel
  induction fuel with
  | zero => intro s r; rfl
  | succ fuel ih =>
    intro s r
    unfold runLoop
    split
    · rcases hp : CombatSimulator.roundStep { s with round := s.round + 1 } r
        with ⟨s1, r1⟩
      have hstep := roundStep_stepOk { s with round := s.round + 1 } r
      rw [hp] at hstep
      dsimp only
      rw [ih s1 r1]
      exact hstep.2.1
    · rfl

theorem runLoop_round_le :
    ∀ (fuel : Nat) (s : CombatSimulator) (r : Rng),
      s.round ≤ s.max_rounds →
      (runLoop fuel s r).1.round ≤ (runLoop fuel s r).1.max_rounds := by
  intro fuel
  induction fuel with
  | zero => intro s r h; exact h
  | succ fuel ih =>
    intro s r h
    unfold runLoop
    split
    · rename_i hc
      rcases hp : CombatSimulator.roundStep { s with round := s.round + 1 } r
        with ⟨s1, r1⟩
      have hstep := roundStep_stepOk { s with round := s.round + 1 } r
      rw [hp] at hstep
      dsimp only
      refine ih s1 r1 ?_
      have e1 : s1.round = s.round + 1 := hstep.1
      have e2 : s1.max_rounds = s.max_rounds := hstep.2.1
      omega
    · exact h

theorem runLoop_exit :
    ∀ (fuel : Nat) (s : CombatSimulator) (r : Rng),
      s.max_rounds - s.round ≤ fuel →
      (runLoop fuel s r).1.is_combat_over = true ∨
        (runLoop fuel s r).1.max_rounds ≤ (runLoop fuel s r).1.round := by
  intro fuel
  induction fuel with
  | zero =>
    intro s r hf
    right
    show s.max_rounds ≤ s.round
    omega
  | succ fuel ih =>
    intro s r hf
    unfold runLoop
    split
    · rename_i hc
      rcases hp : CombatSimulator.roundStep { s with round := s.round + 1 } r
        with ⟨s1, r1⟩
      have hstep := roundStep_stepOk { s with round := s.round + 1 } r
      rw [hp] at hstep
      dsimp only
      refine ih s1 r1 ?_
      have e1 : s1.round = s.round + 1 := hstep.1
      have e2 : s1.max_rounds = s.max_rounds := hstep.2.1
      have hlt : s.round < s.max_rounds := hc.2
      omega
    · rename_i hc
      rcases not_and_or.mp hc with h1 | h2
      · left
        simpa using h1
      · right
        show s.max_rounds ≤ s.round
        omega

/-- The final snapshot's per-side liveness check equals the roster's. -/
theorem mkResult_any (s : CombatSimulator) (sd : Side) :
    s.mkResult.final_state.any (fun a => a.side = sd ∧ a.alive) =
      s.actors.any (fun a => a.side = sd ∧ a.is_alive) := by
  unfold CombatSimulator.mkResult
  dsimp only
  generalize s.actors = l
  induction l with
  | nil => rfl
  | cons a l ih => simp only [List.map_cons, List.any_cons, ih]

/-- C6: `run` always terminates with a result whose winner is `some side`
exactly when that side has a living actor in the final snapshot and the
opposing side has none (simultaneous elimination gives no winner), and
whenever both sides are still alive at termination the round cap was
reached: the winner is `none` and the recorded round count equals the
configured maximum. -/
theorem C6_termination_and_winner (s : CombatSimulator) (r : Rng)
    (h : s.round ≤ s.max_rounds) :
    ((s.run r).1.winner = some Side.side1 ↔
      ((s.run r).1.final_state.any (fun a => a.side = Side.side1 ∧ a.alive) = true ∧
       (s.run r).1.final_state.any (fun a => a.side = Side.side2 ∧ a.alive) = false)) ∧
    ((s.run r).1.winner = some Side.side2 ↔
      ((s.run r).1.final_state.any (fun a => a.side = Side.side2 ∧ a.alive) = true ∧
       (s.run r).1.final_state.any (fun a => a.side = Side.side1 ∧ a.alive) = false)) ∧
    ((s.run r).1.final_state.any (fun a => a.side = Side.side1 ∧ a.alive) = true →
     (s.run r).1.final_state.any (fun a => a.side = Side.side2 ∧ a.alive) = true →
     (s.run r).1.winner = none ∧ (s.run r).1.rounds = s.max_rounds) := by
  have hmax := runLoop_max (s.max_rounds - s.round) s r
  have hle := runLoop_round_le (s.max_rounds - s.round) s r h
  have hexit := runLoop_exit (s.max_rounds - s.round) s r (Nat.le_refl _)
  have hwin : (s.run r).1.winner =
      (runLoop (s.max_rounds - s.round) s r).1.get_winner := rfl
  have hrounds : (s.run r).1.rounds =
      (runLoop (s.max_rounds - s.round) s r).1.round := rfl
  have hany : ∀ sd : Side,
      (s.run r).1.final_state.any (fun a => a.side = sd ∧ a.alive) =
        (runLoop (s.max_rounds - s.round) s r).1.actors.any
          (fun a => a.side = sd ∧ a.is_alive) :=
    fun sd => mkResult_any _ sd
  simp only [hwin, hrounds, hany]
  refine ⟨?_, ?_, ?_⟩
  · cases h1 : (runLoop (s.max_rounds - s.round) s r).1.actors.any
        (fun a => a.side = Side.side1 ∧ a.is_alive) <;>
      cases h2 : (runLoop (s.max_rounds - s.round) s r).1.actors.any
          (fun a => a.side = Side.side2 ∧ a.is_alive) <;>
      (simp only [CombatSimulator.get_winner]
       rw [h1, h2]
       simp)
  · cases h1 : (runLoop (s.max_rounds - s.round) s r).1.actors.any
        (fun a => a.side = Side.side1 ∧ a.is_alive) <;>
      cases h2 : (runLoop (s.max_rounds - s.round) s r).1.actors.any
          (fun a => a.side = Side.side2 ∧ a.is_alive) <;>
      (simp only [CombatSimulator.get_winner]
       rw [h1, h2]
       simp)
  · intro h1 h2
    constructor
    · simp only [CombatSimulator.get_winner]
      rw [h1, h2]
    · have hov : (runLoop (s.max_rounds - s.round) s r).1.is_combat_over
          = false := by
        simp only [CombatSimulator.is_combat_over]
        rw [h1, h2]
        rfl
      rcases hexit with he | he
      · rw [hov] at he
        exact absurd he (by simp)
      · omega

/-- Witness for C6: the stalling encounter reaches the round cap with no
winner, and the empty-side-2 encounter ends with side 1 the winner. -/
theorem C6_termination_and_winner_witness :
    (((CombatSimulator.new stallEncounter 2 rng0).1.run rng0).1.winner = none ∧
     ((CombatSimulator.new stallEncounter 2 rng0).1.run rng0).1.rounds =
       (CombatSimulator.new stallEncounter 2 rng0).1.max_rounds) ∧
    ((CombatSimulator.new soloEncounter 100 rng0).1.run rng0).1.winner =
      some Side.side1 := by
  constructor
  · exact (C6_termination_and_winner
      (CombatSimulator.new stallEncounter 2 rng0).1 rng0 (by decide)).2.2
      (by decide) (by decide)
  · exact ((C6_termination_and_winner
      (CombatSimulator.new soloEncounter 100 rng0).1 rng0 (by decide)).1).mpr
      ⟨by decide, by decide⟩

/-! ## Roster id invariant: C9 -/

/-- Every roster slot holds the actor whose id is its index. -/
def rosterIdsOk (l : List Actor) : Prop :=
  ∀ i, i < l.length → (l.getD i default).id = i

instance (l : List Actor) : Decidable (rosterIdsOk l) :=
  inferInstanceAs (Decidable (∀ i, i < l.length → (l.getD i default).id = i))

instance : Inhabited ActorState :=
  ⟨⟨0, "", .side1, 0, 0, false, .side1Ranged⟩⟩

theorem mkActorsFrom_length (side : Side) :
    ∀ (ts : List ActorTemplate) (n : Nat) (r : Rng),
      ((mkActorsFrom side ts n r).1).length = ts.length := by
  intro ts
  induction ts with
  | nil => intro n r; rfl
  | cons t rest ih =>
    intro n r
    unfold mkActorsFrom
    rcases h1 : Actor.from_template n t side r with ⟨a, r1⟩
    dsimp only
    rcases h2 : mkActorsFrom side rest (n + 1) r1 with ⟨tl, r2⟩
    dsimp only
    have := ih (n + 1) r1
    rw [h2] at this
    simpa using this

theorem mkActorsFrom_ids (side : Side) :
    ∀ (ts : List ActorTemplate) (n : Nat) (r : Rng) (i : Nat),
      i < ts.length →
      (((mkActorsFrom side ts n r).1).getD i default).id = n + i := by
  intro ts
  induction ts with
  | nil => intro n r i h; exact absurd h (by simp)
  | cons t rest ih =>
    intro n r i h
    unfold mkActorsFrom
    rcases h1 : Actor.from_template n t side r with ⟨a, r1⟩
    dsimp only
    rcases h2 : mkActorsFrom side rest (n + 1) r1 with ⟨tl, r2⟩
    dsimp only
    cases i with
    | zero =>
      have : a.id = n := by
        have : (Actor.from_template n t side r).1.id = n := rfl
        rw [h1] at this
        exact this
      simpa using this
    | succ i =>
      have hlt : i < rest.length := by simpa using h
      have := ih (n + 1) r1 i hlt
      rw [h2] at this
      simp only [List.getD_cons_succ]
      rw [this]
      omega

theorem getD_append_split {α : Type} (d : α) :
    ∀ (l1 l2 : List α) (i : Nat),
      (l1 ++ l2).getD i d =
        if i < l1.length then l1.getD i d else l2.getD (i - l1.length) d := by
  intro l1
  induction l1 with
  | nil => intro l2 i; simp
  | cons x xs ih =>
    intro l2 i
    cases i with
    | zero => simp
    | succ i => simpa using ih l2 i

/-- C9 part: `new` assigns consecutive ids matching roster positions. -/
theorem new_rosterIdsOk (enc : Encounter) (mr : Nat) (r : Rng) :
    rosterIdsOk ((CombatSimulator.new enc mr r).1).actors := by
  intro i hlt
  unfold CombatSimulator.new at hlt ⊢
  rcases h1 : mkActorsFrom .side1 enc.side1 0 r with ⟨a1, r1⟩
  rw [h1] at hlt
  dsimp only at hlt ⊢
  rcases h2 : mkActorsFrom .side2 enc.side2 enc.side1.length r1 with ⟨a2, r2⟩
  rw [h2] at hlt
  dsimp only at hlt ⊢
  have hlen1 : a1.length = enc.side1.length := by
    have := mkActorsFrom_length .side1 enc.side1 0 r
    rw [h1] at this
    exact this
  have hlen2 : a2.length = enc.side2.length := by
    have := mkActorsFrom_length .side2 enc.side2 enc.side1.length r1
    rw [h2] at this
    exact this
  rw [getD_append_split]
  split
  · rename_i hi
    have := mkActorsFrom_ids .side1 enc.side1 0 r i (by omega)
    rw [h1] at this
    simpa using this
  · rename_i hi
    have hlt2 : i - a1.length < enc.side2.length := by
      rw [List.length_append] at hlt
      omega
    have := mkActorsFrom_ids .side2 enc.side2 enc.side1.length r1
      (i - a1.length) hlt2
    rw [h2] at this
    rw [this]
    omega

/-- `runLoop` preserves the roster length and slot ids. -/
theorem runLoop_actors :
    ∀ (fuel : Nat) (s : CombatSimulator) (r : Rng),
      (runLoop fuel s r).1.actors.length = s.actors.length ∧
      ∀ i, ((runLoop fuel s r).1.actors.getD i default).id =
        (s.actors.getD i default).id := by
  intro fuel
  induction fuel with
  | zero => intro s r; exact ⟨rfl, fun _ => rfl⟩
  | succ fuel ih =>
    intro s r
    unfold runLoop
    split
    · rcases hp : CombatSimulator.roundStep { s with round := s.round + 1 } r
        with ⟨s1, r1⟩
      have hstep := roundStep_stepOk { s with round := s.round + 1 } r
      rw [hp] at hstep
      dsimp only
      obtain ⟨hl, hi⟩ := ih s1 r1
      exact ⟨hl.trans hstep.2.2.1, fun i => (hi i).trans (hstep.2.2.2 i)⟩
    · exact ⟨rfl, fun _ => rfl⟩

theorem mapGetD_actorState :
    ∀ (l : List Actor) (g : Actor → ActorState) (i : Nat), i < l.length →
      (l.map g).getD i default = g (l.getD i default) := by
  intro l
  induction l with
  | nil => intro g i h; exact absurd h (by simp)
  | cons a rest ih =>
    intro g i h
    cases i with
    | zero => rfl
    | succ i => simpa using ih g i (by simpa using h)

/-- C9 part: the final snapshot's ids equal their indices. -/
theorem run_final_state_ids (s : CombatSimulator) (r : Rng)
    (hids : rosterIdsOk s.actors) :
    ∀ i, i < ((s.run r).1).final_state.length →
      ((((s.run r).1).final_state).getD i default).id = i := by
  intro i hlt
  have hrun : (s.run r).1 = (runLoop (s.max_rounds - s.round) s r).1.mkResult :=
    rfl
  rw [hrun] at hlt ⊢
  obtain ⟨hl, hi⟩ := runLoop_actors (s.max_rounds - s.round) s r
  unfold CombatSimulator.mkResult at hlt ⊢
  simp only [List.length_map] at hlt
  rw [mapGetD_actorState _ _ i hlt]
  show ((runLoop (s.max_rounds - s.round) s r).1.actors.getD i default).id = i
  rw [hi i]
  exact hids i (by omega)

theorem getD_of_lt {α : Type} (d : α) :
    ∀ (l : List α) (i : Nat) (h : i < l.length), l.getD i d = l.get ⟨i, h⟩ := by
  intro l
  induction l with
  | nil => intro i h; exact absurd h (by simp)
  | cons x xs ih =>
    intro i h
    cases i with
    | zero => rfl
    | succ i => simpa using ih i (by simpa using h)

theorem getD_mem {α : Type} (d : α) (l : List α) (i : Nat)
    (h : i < l.length) : l.getD i d ∈ l := by
  rw [getD_of_lt d l i h]
  exact l.get_mem _ _

/-- Under the roster invariant, a roster member's id is in bounds. -/
theorem rosterIdsOk_mem_lt {l : List Actor} (hids : rosterIdsOk l)
    {a : Actor} (hmem : a ∈ l) : a.id < l.length := by
  obtain ⟨⟨i, hi⟩, hget⟩ := List.mem_iff_get.mp hmem
  have := hids i hi
  rw [getD_of_lt default l i hi, hget] at this
  omega

theorem firstMinBy_foldl_mem {β : Type} [LinearOrder β] (key : Actor → β) :
    ∀ (l : List Actor) (acc : Option Actor) (a : Actor),
      l.foldl
        (fun acc x =>
          match acc with
          | none => some x
          | some m => if key x < key m then some x else some m)
        acc = some a →
      a ∈ l ∨ acc = some a := by
  intro l
  induction l with
  | nil => intro acc a h; exact Or.inr h
  | cons x xs ih =>
    intro acc a h
    rcases ih _ a h with hm | hs
    · exact Or.inl (List.mem_cons_of_mem x hm)
    · cases acc with
      | none =>
        left
        simp only at hs
        injection hs with e
        rw [← e]
        exact List.mem_cons_self x xs
      | some m =>
        simp only at hs
        split at hs
        · left
          injection hs with e
          rw [← e]
          exact List.mem_cons_self x xs
        · exact Or.inr hs

theorem firstMinBy_mem {β : Type} [LinearOrder β] (key : Actor → β)
    (l : List Actor) (a : Actor) (h : firstMinBy key l = some a) : a ∈ l := by
  rcases firstMinBy_foldl_mem key l none a h with hm | hs
  · exact hm
  · exact absurd hs (by simp)

theorem nearest_enemy_mem (actor : Actor) (actors : List Actor) (a : Actor)
    (h : nearest_enemy actor actors = some a) : a ∈ actors :=
  List.mem_of_mem_filter (firstMinBy_mem _ _ a h)

theorem lowest_hp_enemy_mem (actor : Actor) (actors : List Actor) (a : Actor)
    (h : lowest_hp_enemy actor actors = some a) : a ∈ actors :=
  List.mem_of_mem_filter (firstMinBy_mem _ _ a h)

theorem random_enemy_mem (actor : Actor) (actors : List Actor) (r : Rng)
    (a : Actor) (h : (random_enemy actor actors r).1 = some a) :
    a ∈ actors := by
  unfold random_enemy at h
  dsimp only at h
  split at h
  · exact absurd h (by simp)
  · rename_i hne
    rcases hg : r.genRangeLt 0 (enemiesOf actor actors).length with ⟨iR, rR⟩
    rw [hg] at h
    dsimp only at h
    injection h with e
    have hlen : 0 < (enemiesOf actor actors).length := by
      cases hc : enemiesOf actor actors with
      | nil => rw [hc] at hne; simp at hne
      | cons y ys => simp
    have hidx : iR < (enemiesOf actor actors).length := by
      have h1 : (r.genRangeLt 0 (enemiesOf actor actors).length).1 <
          (enemiesOf actor actors).length := by
        show 0 + r.next.1 % ((enemiesOf actor actors).length - 0) <
          (enemiesOf actor actors).length
        simpa using Nat.mod_lt _ hlen
      rw [hg] at h1
      exact h1
    rw [← e]
    exact List.mem_of_mem_filter (getD_mem _ _ _ hidx)

/-- C9 part: move-target resolution yields in-bounds ids. -/
theorem resolve_target_lt (t : String) (actor : Actor)
    (actors : List Actor) (r : Rng) (tid : Nat)
    (hids : rosterIdsOk actors)
    (h : (resolve_target t actor actors r).1 = some tid) :
    tid < actors.length := by
  have hnearest : ∀ (r' : Rng),
      (((nearest_enemy actor actors).map (·.id), r') :
        Option Nat × Rng).1 = some tid → tid < actors.length := by
    intro r' hn
    dsimp only at hn
    cases hx : nearest_enemy actor actors with
    | none => rw [hx] at hn; exact absurd hn (by simp)
    | some a =>
      rw [hx] at hn
      simp only [Option.map_some'] at hn
      injection hn with e
      rw [← e]
      exact rosterIdsOk_mem_lt hids (nearest_enemy_mem actor actors a hx)
  unfold resolve_target at h
  by_cases c1 : strToLower (strTrim t) = "nearest_enemy" ∨
      strToLower (strTrim t) = "nearest"
  · rw [if_pos c1] at h
    exact hnearest r h
  · rw [if_neg c1] at h
    by_cases c2 : strToLower (strTrim t) = "lowest_hp_enemy" ∨
        strToLower (strTrim t) = "lowest_hp" ∨
        strToLower (strTrim t) = "weakest"
    · rw [if_pos c2] at h
      dsimp only at h
      cases hx : lowest_hp_enemy actor actors with
      | none => rw [hx] at h; exact absurd h (by simp)
      | some a =>
        rw [hx] at h
        simp only [Option.map_some'] at h
        injection h with e
        rw [← e]
        exact rosterIdsOk_mem_lt hids (lowest_hp_enemy_mem actor actors a hx)
    · rw [if_neg c2] at h
      by_cases c3 : strToLower (strTrim t) = "random_enemy" ∨
          strToLower (strTrim t) = "random"
      · rw [if_pos c3] at h
        rcases hg : random_enemy actor actors r with ⟨oa, rr⟩
        rw [hg] at h
        dsimp only at h
        cases oa with
        | none => exact absurd h (by simp)
        | some a =>
          simp only [Option.map_some'] at h
          injection h with e
          rw [← e]
          refine rosterIdsOk_mem_lt hids (random_enemy_mem actor actors r a ?_)
          rw [hg]
      · rw [if_neg c3] at h
        exact hnearest r h

/-- C9 part: attack-target selection yields in-bounds ids. -/
theorem selectAttackTarget_lt (actor : Actor) (actors : List Actor)
    (t : String) (r : Rng) (tid : Nat) (hids : rosterIdsOk actors)
    (h : (selectAttackTarget actor actors t r).1 = some tid) :
    tid < actors.length := by
  have hsub : ∀ a : Actor, a ∈ enemies_in_range actor actors → a ∈ actors :=
    fun a ha => List.mem_of_mem_filter (List.mem_of_mem_filter ha)
  unfold selectAttackTarget at h
  dsimp only at h
  by_cases c1 : strToLower t = "lowest_hp_enemy" ∨
      strToLower t = "lowest_hp" ∨ strToLower t = "weakest"
  · rw [if_pos c1] at h
    dsimp only at h
    cases hx : firstMinBy (fun e => e.current_hp)
        (enemies_in_range actor actors) with
    | none => rw [hx] at h; exact absurd h (by simp)
    | some a =>
      rw [hx] at h
      simp only [Option.map_some'] at h
      injection h with e
      rw [← e]
      exact rosterIdsOk_mem_lt hids (hsub a (firstMinBy_mem _ _ a hx))
  · rw [if_neg c1] at h
    by_cases c2 : strToLower t = "random_enemy" ∨ strToLower t = "random"
    · rw [if_pos c2] at h
      split at h
      · exact absurd h (by simp)
      · rename_i hne
        rcases hg : r.genRangeLt 0 (enemies_in_range actor actors).length
          with ⟨iR, rR⟩
        rw [hg] at h
        dsimp only at h
        injection h with e
        have hlen : 0 < (enemies_in_range actor actors).length := by
          cases hc : enemies_in_range actor actors with
          | nil => rw [hc] at hne; simp at hne
          | cons y ys => simp
        have hidx : iR < (enemies_in_range actor actors).length := by
          have h1 : (r.genRangeLt 0
              (enemies_in_range actor actors).length).1 <
              (enemies_in_range actor actors).length := by
            show 0 + r.next.1 % ((enemies_in_range actor actors).length - 0) <
              (enemies_in_range actor actors).length
            simpa using Nat.mod_lt _ hlen
          rw [hg] at h1
          exact h1
        rw [← e]
        exact rosterIdsOk_mem_lt hids (hsub _ (getD_mem _ _ _ hidx))
    · rw [if_neg c2] at h
      dsimp only at h
      cases hx : (enemies_in_range actor actors).head? with
      | none => rw [hx] at h; exact absurd h (by simp)
      | some a =>
        rw [hx] at h
        simp only [Option.map_some'] at h
        injection h with e
        rw [← e]
        exact rosterIdsOk_mem_lt hids (hsub a (List.mem_of_mem_head? hx))

theorem livingSideIds_lt (s : CombatSimulator) (sd : Side)
    (hids : rosterIdsOk s.actors) :
    ∀ x ∈ s.livingSideIds sd, x < s.actors.length := by
  intro x hx
  unfold CombatSimulator.livingSideIds at hx
  obtain ⟨a, ha, hid⟩ := List.mem_map.mp hx
  rw [← hid]
  exact rosterIdsOk_mem_lt hids (List.mem_of_mem_filter ha)

theorem listSwap_mem (l : List Nat) (i j : Nat) (hi : i < l.length)
    (hj : j < l.length) (x : Nat) (hx : x ∈ listSwap l i j) : x ∈ l := by
  unfold listSwap at hx
  dsimp only at hx
  rcases List.mem_or_eq_of_mem_set hx with h1 | h1
  · rcases List.mem_or_eq_of_mem_set h1 with h2 | h2
    · exact h2
    · rw [h2]
      exact getD_mem 0 l j hj
  · rw [h1]
    exact getD_mem 0 l i hi

theorem fisherYatesAux_mem :
    ∀ (i : Nat) (l : List Nat) (r : Rng), i < l.length →
      ∀ x ∈ (fisherYatesAux i l r).1, x ∈ l := by
  intro i
  induction i with
  | zero => intro l r h x hx; exact hx
  | succ i ih =>
    intro l r h x hx
    unfold fisherYatesAux at hx
    rcases hg : r.genRange 0 (i + 1) with ⟨j, r1⟩
    rw [hg] at hx
    dsimp only at hx
    have hj : j ≤ i + 1 := by
      have h1 : (r.genRange 0 (i + 1)).1 ≤ i + 1 := by
        show 0 + r.next.1 % (i + 1 + 1) ≤ i + 1
        have h2 : r.next.1 % (i + 1 + 1) < i + 1 + 1 :=
          Nat.mod_lt _ (by omega)
        omega
      rw [hg] at h1
      exact h1
    have hswlen : (listSwap l (i + 1) j).length = l.length := by
      unfold listSwap
      simp [List.length_set]
    have hmem := ih (listSwap l (i + 1) j) r1 (by omega) x hx
    exact listSwap_mem l (i + 1) j h (by omega) x hmem

theorem fisherYates_mem (l : List Nat) (r : Rng) (x : Nat)
    (hx : x ∈ (fisherYates l r).1) : x ∈ l := by
  unfold fisherYates at hx
  cases l with
  | nil =>
    unfold fisherYatesAux at hx
    simp at hx
  | cons y ys =>
    refine fisherYatesAux_mem ((y :: ys).length - 1) (y :: ys) r ?_ x hx
    simp only [List.length_cons]
    omega

/-- C9 part: every id in a shuffled side order is in bounds. -/
theorem shuffled_order_lt (s : CombatSimulator) (sd : Side) (r : Rng)
    (hids : rosterIdsOk s.actors) :
    ∀ x ∈ (s.get_shuffled_side_order sd r).1, x < s.actors.length := by
  intro x hx
  unfold CombatSimulator.get_shuffled_side_order at hx
  exact livingSideIds_lt s sd hids x (fisherYates_mem _ r x hx)

theorem insertInit_mem :
    ∀ (x : Nat × Int) (l : List (Nat × Int)) (r : Rng) (y : Nat × Int),
      y ∈ (insertInit x l r).1 → y = x ∨ y ∈ l := by
  intro x l
  induction l with
  | nil =>
    intro r y hy
    simp only [insertInit, List.mem_singleton] at hy
    exact Or.inl hy
  | cons z zs ih =>
    intro r y hy
    unfold insertInit at hy
    rcases hc : initCmp x z r with ⟨o, r1⟩
    rw [hc] at hy
    dsimp only at hy
    split at hy
    · rcases hins : insertInit x zs r1 with ⟨tl, r2⟩
      rw [hins] at hy
      dsimp only at hy
      rcases List.mem_cons.mp hy with h1 | h1
      · exact Or.inr (by rw [h1]; exact List.mem_cons_self z zs)
      · have := ih r1 y (by rw [hins]; exact h1)
        rcases this with h2 | h2
        · exact Or.inl h2
        · exact Or.inr (List.mem_cons_of_mem z h2)
    · rcases List.mem_cons.mp hy with h1 | h1
      · exact Or.inl h1
      · exact Or.inr h1

theorem sortInits_mem :
    ∀ (l : List (Nat × Int)) (r : Rng) (y : Nat × Int),
      y ∈ (sortInits l r).1 → y ∈ l := by
  intro l
  induction l with
  | nil =>
    intro r y hy
    unfold sortInits at hy
    simp at hy
  | cons x xs ih =>
    intro r y hy
    unfold sortInits at hy
    rcases hs : sortInits xs r with ⟨tl, r1⟩
    rw [hs] at hy
    dsimp only at hy
    rcases insertInit_mem x tl r1 y hy with h1 | h1
    · rw [h1]
      exact List.mem_cons_self x xs
    · exact List.mem_cons_of_mem x (ih r y (by rw [hs]; exact h1))

theorem rollInits_fst_mem :
    ∀ (dice : DamageDice) (l : List Actor) (r : Rng) (p : Nat × Int),
      p ∈ (rollInits dice l r).1 → ∃ a ∈ l, p.1 = a.id := by
  intro dice l
  induction l with
  | nil =>
    intro r p hp
    unfold rollInits at hp
    simp at hp
  | cons a rest ih =>
    intro r p hp
    unfold rollInits at hp
    rcases h1 : dice.roll r with ⟨v, r1⟩
    rw [h1] at hp
    dsimp only at hp
    rcases h2 : rollInits dice rest r1 with ⟨tl, r2⟩
    rw [h2] at hp
    dsimp only at hp
    rcases List.mem_cons.mp hp with h3 | h3
    · exact ⟨a, List.mem_cons_self a rest, by rw [h3]⟩
    · obtain ⟨b, hb, he⟩ := ih r1 p (by rw [h2]; exact h3)
      exact ⟨b, List.mem_cons_of_mem a hb, he⟩

/-- C9 part: every id in the individual-initiative order is in bounds. -/
theorem individual_order_lt (s : CombatSimulator) (r r2 : Rng)
    (hids : rosterIdsOk s.actors) :
    ∀ x ∈ ((sortInits
        (rollInits s.initiative_dice (s.actors.filter (·.is_alive)) r).1
        r2).1.map (·.1)),
      x < s.actors.length := by
  intro x hx
  obtain ⟨p, hp, hfst⟩ := List.mem_map.mp hx
  have hin := sortInits_mem _ r2 p hp
  obtain ⟨a, ha, he⟩ := rollInits_fst_mem s.initiative_dice _ r p hin
  rw [← hfst, he]
  exact rosterIdsOk_mem_lt hids (List.mem_of_mem_filter ha)

/-- C9: roster ids always equal roster indices — `new` assigns
consecutive ids (side 1's templates then side 2's), the whole battle
preserves slot ids and roster length through to the final snapshot, and
every id produced by target resolution (move or attack) or by a
scheduling algorithm (shuffled side order, sorted individual-initiative
order) is a valid in-bounds roster index, so indexing by it never goes
out of range. -/
theorem C9_roster_id_invariant :
    (∀ (enc : Encounter) (mr : Nat) (r : Rng),
      rosterIdsOk ((CombatSimulator.new enc mr r).1).actors) ∧
    (∀ (s : CombatSimulator) (r : Rng), rosterIdsOk s.actors →
      ∀ i, i < ((s.run r).1).final_state.length →
        ((((s.run r).1).final_state).getD i default).id = i) ∧
    (∀ (t : String) (actor : Actor) (actors : List Actor) (r : Rng)
        (tid : Nat), rosterIdsOk actors →
      (resolve_target t actor actors r).1 = some tid →
      tid < actors.length) ∧
    (∀ (actor : Actor) (actors : List Actor) (t : String) (r : Rng)
        (tid : Nat), rosterIdsOk actors →
      (selectAttackTarget actor actors t r).1 = some tid →
      tid < actors.length) ∧
    (∀ (s : CombatSimulator) (sd : Side) (r : Rng), rosterIdsOk s.actors →
      ∀ x ∈ (s.get_shuffled_side_order sd r).1, x < s.actors.length) ∧
    (∀ (s : CombatSimulator) (r r2 : Rng), rosterIdsOk s.actors →
      ∀ x ∈ ((sortInits
          (rollInits s.initiative_dice (s.actors.filter (·.is_alive)) r).1
          r2).1.map (·.1)),
        x < s.actors.length) :=
  ⟨new_rosterIdsOk,
   run_final_state_ids,
   resolve_target_lt,
   selectAttackTarget_lt,
   fun s sd r hids => shuffled_order_lt s sd r hids,
   fun s r r2 hids => individual_order_lt s r r2 hids⟩

/-- Witness for C9 at concrete encounters and rosters. -/
theorem C9_roster_id_invariant_witness :
    rosterIdsOk ((CombatSimulator.new stallEncounter 2 rng0).1).actors ∧
    ((((CombatSimulator.new stallEncounter 2 rng0).1.run rng0).1.final_state).getD 1 default).id = 1 ∧
    (2 : Nat) < rosterC2.length ∧
    (1 : Nat) < rosterC2.length ∧
    (0 : Nat) < simC1.actors.length := by
  refine ⟨C9_roster_id_invariant.1 stallEncounter 2 rng0, ?_, ?_, ?_, ?_⟩
  · exact C9_roster_id_invariant.2.1 (CombatSimulator.new stallEncounter 2 rng0).1
      rng0 (by decide) 1 (by decide)
  · exact C9_roster_id_invariant.2.2.1 "nearest" rangedAttacker rosterC2 rng0 2
      (by decide) (by decide)
  · exact C9_roster_id_invariant.2.2.2.1 rangedAttacker rosterC2 "x" rng0 1
      (by decide) (by decide)
  · exact C9_roster_id_invariant.2.2.2.2.1 simC1 .side1 rng0 (by decide) 0
      (by decide)
